import Mathlib

/-!
Verification development for the first-aid quiz application (src/quiz.py).

The program is a single-threaded pygame state machine.  We give a shallow
embedding of its core logic:

* `Question` and `QUESTION_BANK` embed the question dictionaries of the
  Python `QUESTION_BANK` list (lines 168-247 of quiz.py).  A Python question
  dict is mutable: `handle_answer` stores an extra key `correct` on it.  We
  model a dict as a `Question` record whose `correct` field is `none` until
  that key is written.
* Since the Python session aliases the very dict objects held in
  `QUESTION_BANK` (mutating a round entry mutates the bank entry), the game
  state carries an object `heap : List Question`; both the bank and the
  round list `questions` are lists of heap indices.  Heap cells 0..14 are
  the bank; AI-generated questions are allocated at the end of the heap.
* External effects (the Gemini model call, `json.loads`, `random.choice`,
  `random.sample`, `random.shuffle`) are modelled by oracle parameters:
  a `rand : Nat -> Nat` stream drives all random picks (every outcome of
  the Python RNG corresponds to some stream), and JSON parsing is a
  function parameter `loads : String -> Option A` standing for the
  external `json.loads` (returning `none` where Python raises
  `JSONDecodeError`).
-/

/-- A question dictionary.  Bank entries populate every field except
`correct`; the `correct` field models the `q['correct'] = 1 / 0` key that
`handle_answer` (quiz.py lines 452-470) writes onto the dict after the user
responds. -/
structure Question where
  question : String
  options : List String
  answer : Nat
  difficulty : Nat
  tip : String
  topic : Option String
  correct : Option Nat
deriving DecidableEq

/-- Embedding of the Python `QUESTION_BANK` list (quiz.py lines 168-247),
in source order.  Apostrophes in the source strings are written with the
escape \x27. -/
def QUESTION_BANK : List Question := [
  { question := ("What should you do first when someone is unconscious but breathing normally?"),
    options := [("Give them water"), ("Check for a pulse"), ("Place them in the recovery position"), ("Slap their face to wake them up")],
    answer := 2, difficulty := 1,
    tip := ("The recovery position helps keep their airway open and clear."),
    topic := some ("unconsciousness"), correct := none },
  { question := ("What is the first step for treating a minor cut or scrape?"),
    options := [("Apply a sterile dressing"), ("Wash the area with soap and water"), ("Apply antibiotic ointment"), ("Cover it with a large bandage")],
    answer := 1, difficulty := 1,
    tip := ("Cleaning a wound first helps prevent infection."),
    topic := some ("wound care"), correct := none },
  { question := ("For an adult nosebleed, what is the correct action?"),
    options := [("Tilt the head back and pinch the bridge of the nose"), ("Lie down flat"), ("Pinch the soft part of the nose and lean forward"), ("Stuff cotton deep into the nostril")],
    answer := 2, difficulty := 1,
    tip := ("Leaning forward prevents blood from going down the throat."),
    topic := some ("bleeding"), correct := none },
  { question := ("How should you help someone who is choking but can still cough?"),
    options := [("Hit their back hard"), ("Encourage them to keep coughing"), ("Give abdominal thrusts"), ("Give them water")],
    answer := 1, difficulty := 1,
    tip := ("Coughing is the body\x27s natural way to clear blockages."),
    topic := some ("choking"), correct := none },
  { question := ("What should you apply to a minor burn immediately?"),
    options := [("Ice"), ("Butter"), ("Cool running water for 10-20 minutes"), ("Bandage tightly")],
    answer := 2, difficulty := 1,
    tip := ("Cool water stops the burning process and reduces pain."),
    topic := some ("burns"), correct := none },
  { question := ("A person has chest pain spreading to their arms and is sweating. What should you do first while waiting for an ambulance?"),
    options := [("Give them a sugary drink"), ("Help them into a comfortable position (e.g., half-sitting)"), ("Make them walk around to improve circulation"), ("Give them a paper bag to breathe into")],
    answer := 1, difficulty := 2,
    tip := ("Keeping a potential heart attack victim calm and comfortable reduces strain on the heart. Call 911 immediately."),
    topic := some ("heart attack"), correct := none },
  { question := ("How do you control severe bleeding from a limb wound after applying direct pressure doesn\x27t work?"),
    options := [("Wash the wound with water"), ("Apply a tourniquet above the wound"), ("Apply more dressings on top of the first"), ("Remove the soaked dressing and apply a new one")],
    answer := 2, difficulty := 2,
    tip := ("Do not remove the original dressing; add more on top to maintain pressure."),
    topic := some ("bleeding"), correct := none },
  { question := ("What is the correct depth for chest compressions on an adult during CPR?"),
    options := [("About 1 inch (2.5 cm)"), ("At least 2 inches (5 cm)"), ("About 4 inches (10 cm)"), ("As deep as you can push")],
    answer := 1, difficulty := 2,
    tip := ("2 inches (5 cm) is the standard depth to effectively circulate blood."),
    topic := some ("CPR"), correct := none },
  { question := ("During a seizure, what is a key safety measure you should take for the person?"),
    options := [("Hold them down firmly to stop the shaking"), ("Put something in their mouth to prevent tongue biting"), ("Clear the area of hard or sharp objects"), ("Try to give them water immediately after")],
    answer := 2, difficulty := 2,
    tip := ("Protecting from injury is key. Never restrain them or put anything in their mouth."),
    topic := some ("seizures"), correct := none },
  { question := ("What does \x27RICE\x27 stand for when treating sprains and strains?"),
    options := [("Run, Ice, Call, Emergency"), ("Rest, Ice, Compression, Elevation"), ("Reassure, Inspect, Cover, Evacuate"), ("Rotate, Isolate, Cool, Examine")],
    answer := 1, difficulty := 2,
    tip := ("RICE is the standard procedure for managing soft tissue injuries."),
    topic := some ("sprains"), correct := none },
  { question := ("A person is pale, cold, clammy, and confused after an injury. They are likely in shock. What should you do?"),
    options := [("Give them a hot drink"), ("Have them sit up straight"), ("Lay them down and elevate their legs (if no leg injury)"), ("Walk them around slowly")],
    answer := 2, difficulty := 3,
    tip := ("Elevating the legs helps blood flow back to vital organs in cases of shock."),
    topic := some ("shock"), correct := none },
  { question := ("What does the \x27T\x27 in the FAST acronym for stroke recognition stand for?"),
    options := [("Temperature"), ("Talk"), ("Time"), ("Tingling")],
    answer := 2, difficulty := 3,
    tip := ("Time to call emergency services is critical for stroke outcomes. (F-Face, A-Arms, S-Speech, T-Time)."),
    topic := some ("stroke"), correct := none },
  { question := ("What is the standard ratio of chest compressions to rescue breaths for a single rescuer performing CPR on an adult?"),
    options := [("15 compressions to 2 breaths"), ("30 compressions to 2 breaths"), ("5 compressions to 1 breath"), ("100 compressions with no breaths")],
    answer := 1, difficulty := 3,
    tip := ("30:2 is the universal ratio for adult CPR to balance circulation and oxygenation."),
    topic := some ("CPR"), correct := none },
  { question := ("A person is having a severe allergic reaction (anaphylaxis) and has a prescribed epinephrine auto-injector (EpiPen). What should you do?"),
    options := [("Wait to see if they get better on their own"), ("Help them use the auto-injector and then call 911"), ("Give them an antihistamine pill and wait"), ("Lay them flat and give them water")],
    answer := 1, difficulty := 3,
    tip := ("Anaphylaxis is a life-threatening emergency. Use the EpiPen immediately and always call 911."),
    topic := some ("allergic reactions"), correct := none },
  { question := ("If you suspect someone has a spinal injury after a fall, what is the most important principle to follow?"),
    options := [("Help them get up and walk to a chair"), ("Keep their head, neck, and back perfectly still"), ("Roll them into the recovery position immediately"), ("Give them a pillow to make them comfortable")],
    answer := 1, difficulty := 3,
    tip := ("Preventing movement is crucial to avoid causing further damage to the spinal cord."),
    topic := some ("spinal injuries"), correct := none }
]

/-- Default question value used only to make heap lookups total; every
lookup performed by the embedded code is within bounds in reachable states. -/
def defaultQuestion : Question :=
  { question := (""), options := [], answer := 0, difficulty := 0,
    tip := (""), topic := none, correct := none }

/-- Dereference a heap cell (a Python object reference). -/
def heapGet (heap : List Question) (i : Nat) : Question :=
  heap.getD i defaultQuestion

example : QUESTION_BANK.length = 15 := by decide

/-!
Content Provider model (class `AIAssistant`, quiz.py lines 43-162).

The Gemini library call `self.model.generate_content(prompt)` together with
the `response.text` accessor is an external effect: it either yields a text
or raises.  We model one call outcome by `GenResult`.  The Python `json`
stdlib parser is modelled by a function parameter
`loads : String -> Option A` (`none` where `json.loads` raises
`JSONDecodeError`); the extraction routine never inspects the parsed value,
so it is polymorphic in `A`.
-/

/-- Outcome of one `model.generate_content(...).text` interaction: the
model produced a text, or the call raised (network, auth, blocked content,
any exception). -/
inductive GenResult where
  | raise : GenResult
  | ok : String → GenResult
deriving DecidableEq

/-- The opening-brace character, written by code point to keep brace
characters out of string literals. -/
def lbrace : Char := Char.ofNat 123

/-- The closing-brace character. -/
def rbrace : Char := Char.ofNat 125

/-- Python `str.split(sep)` over character lists, for a nonempty
separator: non-overlapping, left to right.  The fuel argument is the
length of the remaining input, so the fuel-exhausted arm is never taken
for nonempty separators. -/
def splitOnL (sep : List Char) : Nat → List Char → List Char → List (List Char)
  | _, [], acc => [acc.reverse]
  | 0, l, acc => [acc.reverse ++ l]
  | Nat.succ f, c :: rest, acc =>
    if sep.isPrefixOf (c :: rest) then
      acc.reverse :: splitOnL sep f ((c :: rest).drop sep.length) []
    else splitOnL sep f rest (c :: acc)

/-- Python `text.split(sep)` for a nonempty separator string. -/
def pySplit (text sep : String) : List String :=
  (splitOnL sep.toList text.toList.length text.toList []).map String.mk

/-- The whitespace characters removed by Python `str.strip()`. -/
def isPySpace (c : Char) : Bool :=
  c = ' ' || c = '\t' || c = '\n' || c = '\x0d' || c = '\x0b' || c = '\x0c'

/-- Python `text.strip()`. -/
def pyStrip (text : String) : String :=
  String.mk (((text.toList.dropWhile isPySpace).reverse.dropWhile isPySpace).reverse)

/-- Python `sep in text` for a nonempty separator string: true iff `text`
splits into more than one piece at `sep`. -/
def containsSub (text sep : String) : Bool :=
  (pySplit text sep).length > 1

/-- Python `text.find(c)` for a single character: index of the first
occurrence, `-1` if absent. -/
def pyFind (text : String) (c : Char) : Int :=
  match text.toList.findIdx? (fun d => d = c) with
  | some i => (i : Int)
  | none => -1

/-- Python `text.rfind(c)` for a single character: index of the last
occurrence, `-1` if absent. -/
def pyRFind (text : String) (c : Char) : Int :=
  match text.toList.reverse.findIdx? (fun d => d = c) with
  | some i => ((text.toList.length - 1 - i : Nat) : Int)
  | none => -1

/-- Python slice `text[a:b]` for nonnegative bounds. -/
def pySlice (text : String) (a b : Nat) : String :=
  String.mk ((text.toList.drop a).take (b - a))

/-- The code-fence preprocessing step of `_parse_json_from_response`
(quiz.py lines 70-71): if the text contains a json code fence marker, keep
only the segment between the first marker and the following fence. -/
def fenceCut (text : String) : String :=
  if containsSub text ("```json") then
    (pySplit ((pySplit text ("```json")).getD 1 ("")) ("```")).getD 0 ("")
  else text

/-- The substring of `text` spanning the first opening brace to the last
closing brace (Python `text[text.find(lbrace) : text.rfind(rbrace)+1]`),
or `none` when the guard `json_start != -1 and json_end != 0` fails. -/
def braceWindow (text : String) : Option String :=
  let jstart := pyFind text lbrace
  let jend := pyRFind text rbrace + 1
  if jstart ≠ -1 ∧ jend ≠ 0 then
    some (pySlice text jstart.toNat jend.toNat)
  else none

/-- Embedding of `AIAssistant._parse_json_from_response` (quiz.py lines
68-86).  `loads` models `json.loads`; Python strips the text before the
first attempt (`text.strip()`). -/
def parseJsonFromResponse {A : Type} (loads : String → Option A) (text0 : String) : Option A :=
  let text := fenceCut text0
  match loads (pyStrip text) with
  | some v => some v
  | none =>
    match braceWindow text with
    | some sub => loads sub
    | none => none

/-- Embedding of `AIAssistant.generate_personalized_question` (quiz.py
lines 88-113).  `modelConfigured` is `self.model is not None`; the
difficulty and weak-topic arguments only shape the prompt, whose effect is
absorbed in the oracle outcome `res`.  Returns the parsed payload or
`none`; every exception of the underlying call (`GenResult.raise`) is
caught and turned into `none`. -/
def generatePersonalizedQuestion {A : Type} (loads : String → Option A)
    (modelConfigured : Bool) (res : GenResult)
    (_difficulty : Int) (_weakTopics : Option (List String)) : Option A :=
  if !modelConfigured then none
  else
    match res with
    | GenResult.raise => none
    | GenResult.ok t => parseJsonFromResponse loads t

/-- Python list indexing `l[i]` with negative-index semantics: `none`
models an `IndexError`. -/
def pyGetItem (l : List String) (i : Int) : Option String :=
  let j : Int := if i < 0 then i + l.length else i
  if 0 ≤ j ∧ j < l.length then l.get? j.toNat else none

/-- Fixed message returned by `get_detailed_explanation` when the model is
unconfigured. -/
def explanationNoKeyMsg : String :=
  "AI explanation unavailable. Please check your API key setup."

/-- Fixed message returned by `get_detailed_explanation` from its except
arm. -/
def explanationErrorMsg : String :=
  "AI explanation unavailable due to an error."

/-- Embedding of `AIAssistant.get_detailed_explanation` (quiz.py lines
115-140).  Inside the `try` block the code first indexes
`options[user_answer_idx]` and `options[correct_answer_idx]` (either may
raise `IndexError`), then performs the model call; any exception is caught
and converted to the fixed error message.  On success the code returns
`response.text.strip()`. -/
def getDetailedExplanation (modelConfigured : Bool) (res : GenResult)
    (_question : String) (userAnswerIdx correctAnswerIdx : Int)
    (options : List String) : String :=
  if !modelConfigured then explanationNoKeyMsg
  else
    match pyGetItem options userAnswerIdx, pyGetItem options correctAnswerIdx with
    | some _, some _ =>
      match res with
      | GenResult.raise => explanationErrorMsg
      | GenResult.ok t => pyStrip t
    | _, _ => explanationErrorMsg

/-- Fixed message returned by `generate_study_plan` when the model is
unconfigured. -/
def studyPlanNoKeyMsg : String :=
  "AI study plan unavailable. Please check your API key setup."

/-- Fixed message returned by `generate_study_plan` from its except arm. -/
def studyPlanErrorMsg : String :=
  "AI study plan unavailable due to an error."

/-- Embedding of `AIAssistant.generate_study_plan` (quiz.py lines
142-162): prompt construction cannot raise, so the result is the stripped
model text or one of the two fixed messages. -/
def generateStudyPlan (modelConfigured : Bool) (res : GenResult)
    (_weakTopics : List String) (_score : Nat) : String :=
  if !modelConfigured then studyPlanNoKeyMsg
  else
    match res with
    | GenResult.raise => studyPlanErrorMsg
    | GenResult.ok t => pyStrip t

/-!
AI payload acceptance (quiz.py line 409).

`start_quiz` accepts a generated payload with the test
`if ai_question and 'question' in ai_question:`.  We model a parsed payload
dict whose present fields are well-typed by `RawItem`; a field is `none`
when the key is absent from the dict.  Python dict truthiness (an empty
dict is falsy) is `rawTruthy`.
-/

/-- A parsed AI payload dict; `none` fields model absent keys. -/
structure RawItem where
  question : Option String
  options : Option (List String)
  answer : Option Int
  tip : Option String
  difficulty : Option Int
  topic : Option String
  correct : Option Int
deriving DecidableEq

/-- Python truthiness of the payload dict: at least one key present. -/
def rawTruthy (r : RawItem) : Bool :=
  r.question.isSome || r.options.isSome || r.answer.isSome || r.tip.isSome ||
    r.difficulty.isSome || r.topic.isSome || r.correct.isSome

/-- Embedding of the acceptance test on line 409 of quiz.py:
`if ai_question and 'question' in ai_question` — the parse result is
not `None`, the dict is truthy, and it has a `question` key.  This is the
entire validation the code performs on a generated payload. -/
def acceptAIItem (p : Option RawItem) : Bool :=
  match p with
  | none => false
  | some r => rawTruthy r && r.question.isSome

/-- Modelled from the claim wording of C6 (spec sections 4.4 and 9): the
full structured-item schema — question text, exactly 4 option strings, a
correct-option index, a tip and a difficulty all present.  This definition
follows the specification words, for comparison with `acceptAIItem`. -/
def itemSchemaValid (r : RawItem) : Bool :=
  r.question.isSome &&
    (match r.options with
     | some l => l.length = 4
     | none => false) &&
    r.answer.isSome && r.tip.isSome && r.difficulty.isSome

/-- Modelled from the claim wording of C7: first attempt a strict parse of
the full text; on failure retry on the substring spanning the outermost
delimiter pair; if that also fails, or no such pair exists, return `none`.
This definition follows the claim words (no code-fence preprocessing), for
comparison with `parseJsonFromResponse`. -/
def claimDescribedParse {A : Type} (loads : String → Option A) (text : String) : Option A :=
  match loads text with
  | some v => some v
  | none =>
    match braceWindow text with
    | some sub => loads sub
    | none => none

/-!
State machine model (class `QuizGame`, quiz.py lines 334-518).

User input is abstracted to the button a mouse-press activates: the button
rectangles never overlap, so one pygame event activates at most one button,
and pointer motion only toggles hover flags.  The screen value mirrors
`self.state`; rendering is outside the model.

The oracle's `gen` field abstracts one
`generate_personalized_question` call as observed by `start_quiz`:
`some q` stands for a generated payload that passed the acceptance test of
line 409 and carries the item fields (a payload failing the test is
`none`).  An accepted payload that lacks the `options` key crashes the real
program at the rendering layer before any further core transition; such
executions are outside this model.  The `rand` stream drives
`random.choice`, `random.sample` and `random.shuffle`: picking index
`rand k % pool.length` and removing it, repeatedly, reaches exactly the
outcomes the Python RNG can produce.
-/

/-- The screen value, mirroring the strings stored in `self.state`. -/
inductive Screen where
  | home | question | feedback | aiExplanation | summary | studyPlan
deriving DecidableEq

/-- A user input event, identified by the button it activates.  `noop`
covers presses outside every button and pointer motion. -/
inductive Event where
  | clickStart | clickAIMode | clickExplain | clickContinue
  | clickRetake | clickStudyPlan | noop
  | clickOption : Nat → Event
deriving DecidableEq

/-- The mutable state of `QuizGame` relevant to the core logic, plus the
object heap and the oracle cursors.  `questions` holds heap indices because
Python aliases the bank dicts into the round list. -/
structure GameState where
  heap : List Question
  questions : List Nat
  screen : Screen
  index : Int
  score : Nat
  currentDifficulty : Int
  wrongTopics : List String
  aiMode : Bool
  lastUserAnswer : Int
  modelAvailable : Bool
  rng : Nat
  genCount : Nat
deriving DecidableEq

/-- External nondeterminism: generation outcomes and the random stream. -/
structure Oracle where
  gen : Nat → Int → Option (List String) → Option Question
  rand : Nat → Nat

/-- The fixed round size `self.total_questions_in_round` (quiz.py line
359). -/
def totalQuestionsInRound : Nat := 10

/-- The current question dict `self.questions[self.index]`. -/
def currentQ (s : GameState) : Question :=
  heapGet s.heap (s.questions.getD s.index.toNat 0)

/-- Embedding of `[q for q in QUESTION_BANK if q not in self.questions]`
(quiz.py lines 414 and 420): the bank indices whose current dict value does
not occur (by value equality, as Python `in` compares dicts) among the
round's dicts. -/
def freshPool (heap : List Question) (qs : List Nat) : List Nat :=
  (List.range QUESTION_BANK.length).filter
    (fun i => decide (heapGet heap i ∉ qs.map (heapGet heap)))

/-- Sampling without replacement driven by the random stream: pick index
`rand cur % pool.length` and remove it, `n` times.  This realises
`random.choice` (n = 1), `random.sample` (n = needed) and
`random.shuffle` (n = pool.length). -/
def sampleWoR (rand : Nat → Nat) : Nat → List Nat → Nat → List Nat × Nat
  | cur, _pool, 0 => ([], cur)
  | cur, pool, Nat.succ n =>
    if pool.isEmpty then ([], cur)
    else
      let k := rand cur % pool.length
      let rest := pool.eraseIdx k
      let r := sampleWoR rand (cur + 1) rest n
      (pool.getD k 0 :: r.1, r.2)

/-- Embedding of the AI-generation loop of `start_quiz` (quiz.py lines
406-416), run when adaptive mode is on: each iteration asks the provider
for a question at the session's current difficulty; an accepted payload is
stored with its `topic` key overwritten by `ai_generated` and appended to
the round; otherwise a random bank dict not yet in the round is appended
(if any remain).  The second component records the difficulty argument
passed to each generation call. -/
def aiGenLoop (o : Oracle) (topics : Option (List String)) : Nat → GameState → GameState × List Int
  | 0, s => (s, [])
  | Nat.succ n, s =>
    match o.gen s.genCount s.currentDifficulty topics with
    | some q =>
      let qAlloc := { q with topic := some ("ai_generated") }
      let s1 := { s with heap := s.heap ++ [qAlloc],
                         questions := s.questions ++ [s.heap.length],
                         genCount := s.genCount + 1 }
      let r := aiGenLoop o topics n s1
      (r.1, s.currentDifficulty :: r.2)
    | none =>
      let s1 := { s with genCount := s.genCount + 1 }
      let pool := freshPool s1.heap s1.questions
      let s2 :=
        if pool.isEmpty then s1
        else { s1 with
                 questions := s1.questions ++ [pool.getD (o.rand s1.rng % pool.length) 0],
                 rng := s1.rng + 1 }
      let r := aiGenLoop o topics n s2
      (r.1, s.currentDifficulty :: r.2)

/-- Embedding of `QuizGame.adjust_difficulty` (quiz.py lines 382-394).
The code reads `self.questions[-3:]` — the last three entries of the round
list by position — and keeps the values of their `correct` keys, in order.
The float comparisons `sum/3 > 0.7` and `sum/3 < 0.4` are modelled exactly
by the integer comparisons `10*sum > 21` and `10*sum < 12` (for the stored
flag values these floats are far from the thresholds, so rounding cannot
flip either comparison). -/
def adjustDifficulty (s : GameState) : GameState :=
  if s.questions.length > 3 then
    let recent := ((s.questions.drop (s.questions.length - 3)).map
        (heapGet s.heap)).filterMap Question.correct
    if recent.length = 3 then
      if 10 * recent.sum > 21 ∧ s.currentDifficulty < 3 then
        { s with currentDifficulty := s.currentDifficulty + 1 }
      else if 10 * recent.sum < 12 ∧ s.currentDifficulty > 1 then
        { s with currentDifficulty := s.currentDifficulty - 1 }
      else s
    else s
  else s

/-- Embedding of `QuizGame.next_question` (quiz.py lines 432-450):
advance the position; past the end of the round move to the summary
screen, otherwise show the next question. -/
def nextQuestion (s : GameState) : GameState :=
  let s1 := { s with index := s.index + 1 }
  if s1.index ≥ (s1.questions.length : Int) then { s1 with screen := Screen.summary }
  else { s1 with screen := Screen.question }

/-- The dict mutation `current_q['correct'] = c` of `QuizGame.handle_answer`
(quiz.py lines 460 and 467): writing the `correct` key onto the heap cell
`i` also mutates the aliased bank entry. -/
def setCorrect (heap : List Question) (i : Nat) (c : Nat) : List Question :=
  heap.set i { heapGet heap i with correct := some c }

/-- Embedding of `QuizGame.handle_answer` (quiz.py lines 452-470):
record the selection, compare it with the current dict's `answer`, update
the score, on a miss append the dict's `topic` (when present) to
`self.wrong_topics`, write the `correct` key onto the current dict, and
show the feedback screen. -/
def handleAnswer (s : GameState) (selectedIndex : Nat) : GameState :=
  let qid := s.questions.getD s.index.toNat 0
  let q := heapGet s.heap qid
  let s1 := { s with lastUserAnswer := (selectedIndex : Int) }
  if selectedIndex = q.answer then
    { s1 with score := s1.score + 1,
              heap := setCorrect s1.heap qid 1,
              screen := Screen.feedback }
  else
    { s1 with wrongTopics := s1.wrongTopics ++ q.topic.toList,
              heap := setCorrect s1.heap qid 0,
              screen := Screen.feedback }

/-- The tail of `QuizGame.start_quiz` (quiz.py lines 418-430): fill the
remaining round slots from the bank (all remaining bank dicts when fewer
than needed, otherwise a sample without replacement), shuffle the list,
reset the position, score and weak-topics record, and show the first
question. -/
def backfillShuffle (o : Oracle) (s2 : GameState) : GameState :=
  let needed := totalQuestionsInRound - s2.questions.length
  let pool := freshPool s2.heap s2.questions
  let s3 :=
    if pool.length < needed then { s2 with questions := s2.questions ++ pool }
    else
      let pr := sampleWoR o.rand s2.rng pool needed
      { s2 with questions := s2.questions ++ pr.1, rng := pr.2 }
  let shuf := sampleWoR o.rand s3.rng s3.questions s3.questions.length
  let s4 := { s3 with questions := shuf.1, rng := shuf.2 }
  let s5 := { s4 with index := -1, score := 0, wrongTopics := [] }
  nextQuestion s5

/-- Embedding of `QuizGame.start_quiz` (quiz.py lines 396-430).
`self.ai_mode` is the requested flag conjoined with model availability;
the round list is emptied, the difficulty reset to 1, the weak-topic hint
computed from the not-yet-cleared `self.wrong_topics` (deduplicated, as
`list(set(...))`); adaptive mode runs the 5-iteration generation loop;
then `backfillShuffle` completes the round.  The second component is the
log of difficulty arguments passed to generation calls. -/
def startQuizD (o : Oracle) (aiModeArg : Bool) (s0 : GameState) : GameState × List Int :=
  let aiModeOn := aiModeArg && s0.modelAvailable
  let s1 := { s0 with aiMode := aiModeOn, questions := [], currentDifficulty := 1 }
  let weakTopics : Option (List String) :=
    if s1.wrongTopics.isEmpty then none else some s1.wrongTopics.dedup
  let r2 := if aiModeOn then aiGenLoop o weakTopics 5 s1 else (s1, [])
  (backfillShuffle o r2.1, r2.2)

/-- Embedding of `QuizGame.handle_event` (quiz.py lines 487-518), plus the
screen changes performed by `get_ai_explanation` and `request_study_plan`.
The second component is the log of difficulty arguments passed to
generation calls during the step. -/
def step (o : Oracle) (s : GameState) (e : Event) : GameState × List Int :=
  match s.screen, e with
  | Screen.home, Event.clickStart => startQuizD o false s
  | Screen.home, Event.clickAIMode =>
    if s.modelAvailable then startQuizD o true s else (s, [])
  | Screen.question, Event.clickOption i =>
    if i < (currentQ s).options.length then (handleAnswer s i, []) else (s, [])
  | Screen.feedback, Event.clickExplain =>
    if s.lastUserAnswer ≠ ((currentQ s).answer : Int) ∧ s.modelAvailable then
      ({ s with screen := Screen.aiExplanation }, [])
    else (s, [])
  | Screen.feedback, Event.clickContinue => (nextQuestion (adjustDifficulty s), [])
  | Screen.aiExplanation, Event.clickContinue => (nextQuestion (adjustDifficulty s), [])
  | Screen.summary, Event.clickRetake => startQuizD o s.aiMode s
  | Screen.summary, Event.clickStudyPlan =>
    if s.modelAvailable then ({ s with screen := Screen.studyPlan }, []) else (s, [])
  | Screen.studyPlan, Event.clickRetake => startQuizD o s.aiMode s
  | _, _ => (s, [])

/-- Run a sequence of events, concatenating the generation logs. -/
def run (o : Oracle) : GameState → List Event → GameState × List Int
  | s, [] => (s, [])
  | s, e :: es =>
    let r := step o s e
    let r2 := run o r.1 es
    (r2.1, r.2 ++ r2.2)

/-- The state after `QuizGame.__init__` (quiz.py lines 334-376): home
screen, difficulty 1, empty round, heap holding exactly the bank dicts.
`modelAvailable` records whether `AIAssistant.initialize_model` obtained a
key. -/
def initState (modelAvailable : Bool) : GameState :=
  { heap := QUESTION_BANK, questions := [], screen := Screen.home,
    index := -1, score := 0, currentDifficulty := 1, wrongTopics := [],
    aiMode := false, lastUserAnswer := -1, modelAvailable := modelAvailable,
    rng := 0, genCount := 0 }

/-!
Derived quantities and concrete fixtures used by the theorems below.
-/

/-- The dict values of the current round, in order. -/
def roundValues (s : GameState) : List Question :=
  s.questions.map (heapGet s.heap)

/-- The current values of the bank cells (`QUESTION_BANK` as the running
program sees it, stale `correct` flags included). -/
def bankCells (heap : List Question) : List Question :=
  (List.range QUESTION_BANK.length).map (heapGet heap)

/-- Number of submissions whose selected option index equals the matching
item's correct-answer index (match-up of round positions and selections,
evaluated on a fixed heap). -/
def correctCount (heap : List Question) : List Nat → List Nat → Nat
  | q :: qs, a :: tl =>
    (if a = (heapGet heap q).answer then 1 else 0) + correctCount heap qs tl
  | _, _ => 0

/-- The topics of the missed items (when present), in round order. -/
def missedTopics (heap : List Question) : List Nat → List Nat → List String
  | q :: qs, a :: tl =>
    (if a = (heapGet heap q).answer then [] else (heapGet heap q).topic.toList) ++
      missedTopics heap qs tl
  | _, _ => []

/-- The state-event pairs at which a round is constructed (`start_quiz`
runs): the two home-screen start buttons and the retake button. -/
def isRoundStart (s : GameState) (e : Event) : Prop :=
  (s.screen = Screen.home ∧ (e = Event.clickStart ∨ e = Event.clickAIMode)) ∨
    ((s.screen = Screen.summary ∨ s.screen = Screen.studyPlan) ∧ e = Event.clickRetake)

/-- The state-event pairs at which `adjust_difficulty` is evaluated: the
continue button on the feedback and explanation screens. -/
def isAdjustPoint (s : GameState) (e : Event) : Prop :=
  (s.screen = Screen.feedback ∨ s.screen = Screen.aiExplanation) ∧ e = Event.clickContinue

/-- The events of standard-mode play: everything except the three
AI-gated buttons. -/
def standardEvent (e : Event) : Prop :=
  e = Event.clickStart ∨ e = Event.clickContinue ∨ e = Event.clickRetake ∨
    e = Event.noop ∨ ∃ i, e = Event.clickOption i

/-- Overwrite only the model-availability component of a state. -/
def setModelAvail (s : GameState) (b : Bool) : GameState :=
  { s with modelAvailable := b }

/-- The events of one full played round: for each submission, click the
selected option and then continue. -/
def roundEvents (sels : List Nat) : List Event :=
  sels.flatMap (fun i => [Event.clickOption i, Event.clickContinue])

/-- Oracle with failing generation and a constant random stream (under
which every pick takes the first pool element, so sampling keeps bank
order and shuffling is the identity permutation). -/
def oracleZero : Oracle :=
  { gen := fun _ _ _ => none, rand := fun _ => 0 }

/-- A well-formed generated question used to exercise adaptive rounds. -/
def aiQuestionFixture : Question :=
  { question := ("Z: a generated scenario question"),
    options := [("A"), ("B"), ("C"), ("D")], answer := 0, difficulty := 1,
    tip := ("a tip"), topic := none, correct := none }

/-- Oracle whose five generation calls all return the same accepted
payload. -/
def oracleDupAI : Oracle :=
  { gen := fun _ _ _ => some aiQuestionFixture, rand := fun _ => 0 }

/-- Correct selections for the round `[0..9]` produced by `oracleZero`
from the initial state (the first ten bank answers in order). -/
def correctSelections : List Nat := [2, 1, 2, 1, 2, 1, 2, 1, 2, 1]

/-- Event trace: start a standard round and answer the first three
questions correctly (the difficulty-adjustment evaluation after the third
answer is the next continue click). -/
def c1Trace : List Event :=
  Event.clickStart :: [Event.clickOption 2, Event.clickContinue,
    Event.clickOption 1, Event.clickContinue, Event.clickOption 2]

/-- Event trace: play a full standard round with all answers correct,
then click retake on the summary screen. -/
def retakeTrace : List Event :=
  (Event.clickStart :: roundEvents correctSelections) ++ [Event.clickRetake]

/-- A parsed payload carrying only a question text: no options, no answer
index, no tip, no difficulty. -/
def c6Payload : RawItem :=
  { question := some ("In an emergency, what should you do first?"),
    options := none, answer := none, tip := none, difficulty := none,
    topic := none, correct := none }

/-- A `json.loads` model adequate for the input `"```json"` (a JSON
string literal whose value is the fence marker): that full text parses to
the string `\x60\x60\x60json`, and no substring of it that the routine
ever queries is valid JSON. -/
def loadsFenceLiteral : String → Option String := fun s =>
  if s = ("\"```json\"") then some ("```json") else none

/-- A `json.loads` model for the witness of the amended C7 behaviour:
only the exact text `\x7b1\x7d` parses (to the number 1). -/
def loadsBraceOne : String → Option Nat := fun s =>
  if s = ("\x7b1\x7d") then some 1 else none

/-- A `json.loads` model that rejects every string. -/
def loadsNothing : String → Option Nat := fun _ => none

/-- The state reached by answering the first three questions of a fresh
standard round correctly (feedback screen of the third question). -/
def c1State : GameState := (run oracleZero (initState false) c1Trace).1

/-- The state reached right after clicking retake at the end of a fully
played standard round. -/
def retakeState : GameState := (run oracleZero (initState false) retakeTrace).1

/-- The state reached by starting an adaptive round whose five generation
calls all return the same accepted payload. -/
def dupAIState : GameState := (run oracleDupAI (initState true) [Event.clickAIMode]).1

/-!
Claim theorems.
-/

/-- C1 (code evaluation at the failing input): in a fresh standard round
the user has answered exactly the first three questions, all correctly,
and the difficulty is 1; at the next difficulty-adjustment evaluation
point (the continue click) the difficulty stays 1, although the three most
recently answered items are all correct and the claim requires
min(1+1, 3) = 2.  The code reads the flags of the round's last three
items by position (`self.questions[-3:]`), which are unanswered here. -/
theorem C1_adjustment_reads_wrong_items :
    c1State.screen = Screen.feedback ∧
    c1State.questions.length = 10 ∧
    (c1State.questions.take 3).map (fun i => (heapGet c1State.heap i).correct) =
      [some 1, some 1, some 1] ∧
    (c1State.questions.drop 3).map (fun i => (heapGet c1State.heap i).correct) =
      List.replicate 7 none ∧
    c1State.currentDifficulty = 1 ∧
    ((step oracleZero c1State Event.clickContinue).1).currentDifficulty = 1 := by
  decide

/-- C2 (counterexample): a round constructed by `start_quiz` in adaptive
mode, of the nominal length 10, whose question list contains duplicate
entries — the five accepted generation results are equal dicts and the
code never compares generated items against the round. -/
theorem C2_duplicate_ai_round :
    dupAIState.screen = Screen.question ∧
    dupAIState.questions.length = 10 ∧
    ¬ (roundValues dupAIState).Nodup := by
  decide

/-- C5: none of the three provider operations propagates a failure: for
every configuration and every outcome of the underlying model call
(including raising), `generate_personalized_question` returns a parsed
payload or `none`, and the explanation and study-plan operations return
either the stripped model text or one of their fixed unavailable-message
strings. -/
theorem C5_provider_operations_never_raise :
    ∀ {A : Type} (loads : String → Option A) (mc : Bool) (res : GenResult)
      (d : Int) (wt : Option (List String)) (q : String) (ui ci : Int)
      (opts : List String) (topics : List String) (sc : Nat),
      (generatePersonalizedQuestion loads mc res d wt = none ∨
        ∃ t, res = GenResult.ok t ∧
          generatePersonalizedQuestion loads mc res d wt = parseJsonFromResponse loads t) ∧
      (getDetailedExplanation mc res q ui ci opts = explanationNoKeyMsg ∨
        getDetailedExplanation mc res q ui ci opts = explanationErrorMsg ∨
        ∃ t, res = GenResult.ok t ∧ getDetailedExplanation mc res q ui ci opts = pyStrip t) ∧
      (generateStudyPlan mc res topics sc = studyPlanNoKeyMsg ∨
        generateStudyPlan mc res topics sc = studyPlanErrorMsg ∨
        ∃ t, res = GenResult.ok t ∧ generateStudyPlan mc res topics sc = pyStrip t) := by
  intro A loads mc res d wt q ui ci opts topics sc
  refine ⟨?_, ?_, ?_⟩
  · cases mc with
    | false => left; rfl
    | true =>
      cases res with
      | raise => left; rfl
      | ok t => right; exact ⟨t, rfl, rfl⟩
  · cases mc with
    | false => left; rfl
    | true =>
      cases h1 : pyGetItem opts ui with
      | none => right; left; simp [getDetailedExplanation, h1]
      | some x =>
        cases h2 : pyGetItem opts ci with
        | none => right; left; simp [getDetailedExplanation, h1, h2]
        | some y =>
          cases res with
          | raise => right; left; simp [getDetailedExplanation, h1, h2]
          | ok t => right; right; exact ⟨t, rfl, by simp [getDetailedExplanation, h1, h2]⟩
  · cases mc with
    | false => left; rfl
    | true =>
      cases res with
      | raise => right; left; rfl
      | ok t => right; right; exact ⟨t, rfl, rfl⟩

/-- C6 (code evaluation at the failing input): a generated payload
carrying only a question text — no options, hence violating the
structured-item schema — passes the acceptance test of quiz.py line 409,
so it is admitted into the round rather than being treated as unavailable
and replaced by a bank item. -/
theorem C6_acceptance_ignores_schema :
    acceptAIItem (some c6Payload) = true ∧
    itemSchemaValid c6Payload = false ∧
    c6Payload.options = none := by
  decide

/-- C7 (counterexample): on the input text `"```json"` — a valid JSON
string literal containing the fence marker — the claim-described procedure
(strict parse of the full text first) succeeds, but the routine first cuts
the text at the fence marker and then returns `none`.  The two disagree,
so the claim's description of the routine is false as stated. -/
theorem C7_fence_literal_divergence :
    claimDescribedParse loadsFenceLiteral ("\"```json\"") = some ("```json") ∧
    parseJsonFromResponse loadsFenceLiteral ("\"```json\"") = none := by
  decide

/-- C7 (amended): the routine first cuts the text down to the segment
after the first occurrence of the json fence marker (when present), then
strict-parses the stripped result; on failure it retries on the substring
spanning the first opening brace to the last closing brace; if that also
fails, or no such pair exists, it returns `none` — it never raises. -/
theorem C7_amended_staged_parse :
    ∀ {A : Type} (loads : String → Option A) (text : String),
      (∀ v, loads (pyStrip (fenceCut text)) = some v →
        parseJsonFromResponse loads text = some v) ∧
      (loads (pyStrip (fenceCut text)) = none →
        ∀ sub, braceWindow (fenceCut text) = some sub →
          parseJsonFromResponse loads text = loads sub) ∧
      (loads (pyStrip (fenceCut text)) = none → braceWindow (fenceCut text) = none →
        parseJsonFromResponse loads text = none) := by
  intro A loads text
  refine ⟨?_, ?_, ?_⟩
  · intro v hv
    simp [parseJsonFromResponse, hv]
  · intro h sub hsub
    simp [parseJsonFromResponse, h, hsub]
  · intro h hb
    simp [parseJsonFromResponse, h, hb]

/-- Witness for the amended C7 behaviour at concrete inputs: a bare JSON
object surrounded by whitespace parses at the first stage; a brace-free
text on which every parse fails yields `none`. -/
theorem C7_amended_staged_parse_witness :
    parseJsonFromResponse loadsBraceOne (" \x7b1\x7d ") = some 1 ∧
    parseJsonFromResponse loadsNothing ("no braces here") = none :=
  ⟨(C7_amended_staged_parse loadsBraceOne (" \x7b1\x7d ")).1 1 (by decide),
   (C7_amended_staged_parse loadsNothing ("no braces here")).2.2 (by decide) (by decide)⟩

/-- C9 (counterexample): the first state of a retake round — a newly
created round, before the user has responded to anything — whose first
item already carries the answered-correctly flag, because `handle_answer`
mutated the aliased bank dict during the previous round and `start_quiz`
never clears the key. -/
theorem C9_retake_round_carries_stale_flag :
    retakeState.screen = Screen.question ∧
    retakeState.index = 0 ∧
    (heapGet retakeState.heap (retakeState.questions.getD 0 0)).correct = some 1 := by
  decide

/-!
List-level helper lemmas for the sampling machinery.
-/

theorem eraseIdx_map_comm {α β : Type} (f : α → β) (l : List α) (k : Nat) :
    (l.eraseIdx k).map f = (l.map f).eraseIdx k := by
  rw [List.eraseIdx_eq_take_drop_succ, List.eraseIdx_eq_take_drop_succ]
  simp [List.map_take, List.map_drop]

theorem getElem_not_mem_eraseIdx {α : Type} (l : List α) (k : Nat) (hk : k < l.length)
    (hl : l.Nodup) : l[k] ∉ l.eraseIdx k := by
  intro hmem
  rcases List.mem_eraseIdx_iff_getElem.mp hmem with ⟨i, hi, hik, hEq⟩
  exact hik ((hl.getElem_inj_iff).mp hEq)

theorem getD_eq_getElem_of_lt {α : Type} (l : List α) (k : Nat) (d : α) (hk : k < l.length) :
    l.getD k d = l[k] := by
  rw [List.getD_eq_getElem?_getD, List.getElem?_eq_getElem hk]
  rfl

theorem cons_eraseIdx_perm {α : Type} (l : List α) (k : Nat) (d : α) (hk : k < l.length) :
    (l.getD k d :: l.eraseIdx k).Perm l := by
  rw [getD_eq_getElem_of_lt l k d hk, List.eraseIdx_eq_take_drop_succ]
  have h2 : l.take k ++ l[k] :: l.drop (k + 1) = l := by
    conv_rhs => rw [← List.take_append_drop k l]
    rw [List.drop_eq_getElem_cons hk]
  exact List.Perm.trans List.perm_middle.symm (by rw [h2])

theorem sampleWoR_length (rand : Nat → Nat) :
    ∀ (n cur : Nat) (pool : List Nat),
      ((sampleWoR rand cur pool n).1).length = min n pool.length := by
  intro n
  induction n with
  | zero => intro cur pool; simp [sampleWoR]
  | succ n ih =>
    intro cur pool
    unfold sampleWoR
    by_cases hp : pool.isEmpty
    · rw [List.isEmpty_iff] at hp
      subst hp
      simp
    · have hlen : 0 < pool.length := by
        cases pool with
        | nil => simp at hp
        | cons a l => simp
      have hk : rand cur % pool.length < pool.length := Nat.mod_lt _ hlen
      simp only [hp, Bool.false_eq_true, if_false, List.length_cons, ih]
      rw [List.length_eraseIdx]
      simp only [hk, if_true]
      omega

theorem sampleWoR_mem (rand : Nat → Nat) :
    ∀ (n cur : Nat) (pool : List Nat) (x : Nat),
      x ∈ (sampleWoR rand cur pool n).1 → x ∈ pool := by
  intro n
  induction n with
  | zero => intro cur pool x hx; simp [sampleWoR] at hx
  | succ n ih =>
    intro cur pool x hx
    unfold sampleWoR at hx
    by_cases hp : pool.isEmpty
    · simp [hp] at hx
    · have hlen : 0 < pool.length := by
        cases pool with
        | nil => simp at hp
        | cons a l => simp
      have hk : rand cur % pool.length < pool.length := Nat.mod_lt _ hlen
      simp only [hp, Bool.false_eq_true, if_false, List.mem_cons] at hx
      rcases hx with hx | hx
      · rw [hx, getD_eq_getElem_of_lt _ _ _ hk]
        exact List.getElem_mem hk
      · exact (List.eraseIdx_sublist pool (rand cur % pool.length)).mem (ih _ _ x hx)

theorem sampleWoR_map_nodup {β : Type} [DecidableEq β] (rand : Nat → Nat) (f : Nat → β) :
    ∀ (n cur : Nat) (pool : List Nat), (pool.map f).Nodup →
      (((sampleWoR rand cur pool n).1).map f).Nodup := by
  intro n
  induction n with
  | zero => intro cur pool _; simp [sampleWoR]
  | succ n ih =>
    intro cur pool hnd
    unfold sampleWoR
    by_cases hp : pool.isEmpty
    · simp [hp]
    · have hlen : 0 < pool.length := by
        cases pool with
        | nil => simp at hp
        | cons a l => simp
      have hk : rand cur % pool.length < pool.length := Nat.mod_lt _ hlen
      simp only [hp, Bool.false_eq_true, if_false, List.map_cons, List.nodup_cons]
      constructor
      · intro hmem
        rcases List.mem_map.mp hmem with ⟨y, hy, hfy⟩
        have hy2 : y ∈ pool.eraseIdx (rand cur % pool.length) := sampleWoR_mem rand n _ _ y hy
        have : f y ∈ (pool.eraseIdx (rand cur % pool.length)).map f := List.mem_map_of_mem f hy2
        rw [eraseIdx_map_comm] at this
        rw [hfy, getD_eq_getElem_of_lt _ _ _ hk] at this
        have hkm : rand cur % pool.length < (pool.map f).length := by
          rw [List.length_map]; exact hk
        have hgm : (pool.map f)[rand cur % pool.length] = f pool[rand cur % pool.length] := by
          simp
        rw [← hgm] at this
        exact getElem_not_mem_eraseIdx (pool.map f) _ hkm hnd this
      · apply ih
        rw [eraseIdx_map_comm]
        exact List.Nodup.sublist (List.eraseIdx_sublist _ _) hnd

theorem sampleWoR_perm (rand : Nat → Nat) :
    ∀ (n cur : Nat) (pool : List Nat), pool.length = n →
      ((sampleWoR rand cur pool n).1).Perm pool := by
  intro n
  induction n with
  | zero =>
    intro cur pool hlen
    rw [List.length_eq_zero] at hlen
    subst hlen
    simp [sampleWoR]
  | succ n ih =>
    intro cur pool hlen
    have hp : pool.isEmpty = false := by
      cases pool with
      | nil => simp at hlen
      | cons a l => simp
    have hpos : 0 < pool.length := by omega
    have hk : rand cur % pool.length < pool.length := Nat.mod_lt _ hpos
    unfold sampleWoR
    simp only [hp, Bool.false_eq_true, if_false]
    have herase : (pool.eraseIdx (rand cur % pool.length)).length = n := by
      rw [List.length_eraseIdx]
      simp only [hk, if_true]
      omega
    exact (List.Perm.cons _ (ih _ _ herase)).trans (cons_eraseIdx_perm pool _ 0 hk)

/-!
Frame lemmas about the embedded operations.
-/

theorem heapGet_setCorrect_ne (heap : List Question) (i c j : Nat) (h : j ≠ i) :
    heapGet (setCorrect heap i c) j = heapGet heap j := by
  unfold setCorrect heapGet
  rw [List.getD_eq_getElem?_getD, List.getD_eq_getElem?_getD, List.getElem?_set]
  simp [Ne.symm h]

theorem heapGet_setCorrect_self (heap : List Question) (i c : Nat) (h : i < heap.length) :
    heapGet (setCorrect heap i c) i = { heapGet heap i with correct := some c } := by
  unfold setCorrect heapGet
  rw [List.getD_eq_getElem?_getD, List.getElem?_set]
  simp [h]

theorem heapGet_setCorrect_fields (heap : List Question) (i c j : Nat) :
    (heapGet (setCorrect heap i c) j).answer = (heapGet heap j).answer ∧
    (heapGet (setCorrect heap i c) j).topic = (heapGet heap j).topic ∧
    (heapGet (setCorrect heap i c) j).options = (heapGet heap j).options := by
  by_cases hij : j = i
  · subst hij
    by_cases hlen : j < heap.length
    · rw [heapGet_setCorrect_self heap j c hlen]
      exact ⟨rfl, rfl, rfl⟩
    · have hset : setCorrect heap j c = heap := by
        unfold setCorrect
        apply List.set_eq_of_length_le
        omega
      rw [hset]
      exact ⟨rfl, rfl, rfl⟩
  · rw [heapGet_setCorrect_ne heap i c j hij]
    exact ⟨rfl, rfl, rfl⟩

theorem setCorrect_length (heap : List Question) (i c : Nat) :
    (setCorrect heap i c).length = heap.length := by
  unfold setCorrect
  exact List.length_set heap i _

theorem correctCount_setCorrect (heap : List Question) (i c : Nat) :
    ∀ (qs sels : List Nat),
      correctCount (setCorrect heap i c) qs sels = correctCount heap qs sels := by
  intro qs
  induction qs with
  | nil => intro sels; cases sels <;> rfl
  | cons q tl ih =>
    intro sels
    cases sels with
    | nil => rfl
    | cons a tl2 =>
      unfold correctCount
      rw [(heapGet_setCorrect_fields heap i c q).1, ih tl2]

theorem missedTopics_setCorrect (heap : List Question) (i c : Nat) :
    ∀ (qs sels : List Nat),
      missedTopics (setCorrect heap i c) qs sels = missedTopics heap qs sels := by
  intro qs
  induction qs with
  | nil => intro sels; cases sels <;> rfl
  | cons q tl ih =>
    intro sels
    cases sels with
    | nil => rfl
    | cons a tl2 =>
      unfold missedTopics
      rw [(heapGet_setCorrect_fields heap i c q).1,
        (heapGet_setCorrect_fields heap i c q).2.1, ih tl2]

theorem adjustDifficulty_shape (s : GameState) :
    ∃ d, adjustDifficulty s = { s with currentDifficulty := d } := by
  unfold adjustDifficulty
  dsimp only
  split
  · split
    · split
      · exact ⟨_, rfl⟩
      · split
        · exact ⟨_, rfl⟩
        · exact ⟨s.currentDifficulty, rfl⟩
    · exact ⟨s.currentDifficulty, rfl⟩
  · exact ⟨s.currentDifficulty, rfl⟩

theorem adjustDifficulty_cases (s : GameState) :
    (adjustDifficulty s).currentDifficulty = s.currentDifficulty ∨
    ((adjustDifficulty s).currentDifficulty = s.currentDifficulty + 1 ∧
      s.currentDifficulty < 3) ∨
    ((adjustDifficulty s).currentDifficulty = s.currentDifficulty - 1 ∧
      1 < s.currentDifficulty) := by
  unfold adjustDifficulty
  dsimp only
  split
  · split
    · split
      · next h => exact Or.inr (Or.inl ⟨rfl, h.2⟩)
      · split
        · next h => exact Or.inr (Or.inr ⟨rfl, h.2⟩)
        · exact Or.inl rfl
    · exact Or.inl rfl
  · exact Or.inl rfl

theorem nextQuestion_shape (s : GameState) :
    (nextQuestion s = { s with index := s.index + 1, screen := Screen.summary } ∧
      (s.questions.length : Int) ≤ s.index + 1) ∨
    (nextQuestion s = { s with index := s.index + 1, screen := Screen.question } ∧
      s.index + 1 < (s.questions.length : Int)) := by
  unfold nextQuestion
  dsimp only
  split
  · next h => exact Or.inl ⟨rfl, h⟩
  · next h => exact Or.inr ⟨rfl, by omega⟩

theorem handleAnswer_spec (s : GameState) (a : Nat) :
    (handleAnswer s a).questions = s.questions ∧
    (handleAnswer s a).index = s.index ∧
    (handleAnswer s a).screen = Screen.feedback ∧
    (handleAnswer s a).currentDifficulty = s.currentDifficulty ∧
    (handleAnswer s a).modelAvailable = s.modelAvailable ∧
    (handleAnswer s a).aiMode = s.aiMode ∧
    (handleAnswer s a).heap =
      setCorrect s.heap (s.questions.getD s.index.toNat 0)
        (if a = (heapGet s.heap (s.questions.getD s.index.toNat 0)).answer then 1 else 0) ∧
    (handleAnswer s a).score =
      s.score +
        (if a = (heapGet s.heap (s.questions.getD s.index.toNat 0)).answer then 1 else 0) ∧
    (handleAnswer s a).wrongTopics =
      s.wrongTopics ++
        (if a = (heapGet s.heap (s.questions.getD s.index.toNat 0)).answer then []
         else (heapGet s.heap (s.questions.getD s.index.toNat 0)).topic.toList) := by
  unfold handleAnswer
  dsimp only
  split
  · next h => simp [h]
  · next h => simp [h]

theorem aiGenLoop_fields (o : Oracle) (t : Option (List String)) :
    ∀ (n : Nat) (s : GameState),
      ((aiGenLoop o t n s).1.screen = s.screen) ∧
      ((aiGenLoop o t n s).1.index = s.index) ∧
      ((aiGenLoop o t n s).1.score = s.score) ∧
      ((aiGenLoop o t n s).1.currentDifficulty = s.currentDifficulty) ∧
      ((aiGenLoop o t n s).1.wrongTopics = s.wrongTopics) ∧
      ((aiGenLoop o t n s).1.aiMode = s.aiMode) ∧
      ((aiGenLoop o t n s).1.modelAvailable = s.modelAvailable) := by
  intro n
  induction n with
  | zero =>
    intro s
    exact ⟨rfl, rfl, rfl, rfl, rfl, rfl, rfl⟩
  | succ n ih =>
    intro s
    unfold aiGenLoop
    cases hg : o.gen s.genCount s.currentDifficulty t with
    | some q =>
      dsimp only
      exact ih _
    | none =>
      dsimp only
      split
      · exact ih _
      · exact ih _

theorem aiGenLoop_log (o : Oracle) (t : Option (List String)) :
    ∀ (n : Nat) (s : GameState),
      (aiGenLoop o t n s).2 = List.replicate n s.currentDifficulty := by
  intro n
  induction n with
  | zero => intro s; rfl
  | succ n ih =>
    intro s
    unfold aiGenLoop
    cases hg : o.gen s.genCount s.currentDifficulty t with
    | some q =>
      dsimp only
      rw [ih]
      rfl
    | none =>
      dsimp only
      split
      · rw [ih]; rfl
      · rw [ih]; rfl

theorem nextQuestion_fields (s : GameState) :
    (nextQuestion s).score = s.score ∧
    (nextQuestion s).wrongTopics = s.wrongTopics ∧
    (nextQuestion s).currentDifficulty = s.currentDifficulty ∧
    (nextQuestion s).heap = s.heap ∧
    (nextQuestion s).questions = s.questions ∧
    (nextQuestion s).aiMode = s.aiMode ∧
    (nextQuestion s).modelAvailable = s.modelAvailable ∧
    (nextQuestion s).index = s.index + 1 := by
  rcases nextQuestion_shape s with ⟨h, _⟩ | ⟨h, _⟩ <;> rw [h] <;>
    exact ⟨rfl, rfl, rfl, rfl, rfl, rfl, rfl, rfl⟩

theorem adjustDifficulty_fields (s : GameState) :
    (adjustDifficulty s).score = s.score ∧
    (adjustDifficulty s).wrongTopics = s.wrongTopics ∧
    (adjustDifficulty s).heap = s.heap ∧
    (adjustDifficulty s).questions = s.questions ∧
    (adjustDifficulty s).aiMode = s.aiMode ∧
    (adjustDifficulty s).modelAvailable = s.modelAvailable ∧
    (adjustDifficulty s).index = s.index ∧
    (adjustDifficulty s).screen = s.screen := by
  rcases adjustDifficulty_shape s with ⟨d, h⟩ <;> rw [h] <;>
    exact ⟨rfl, rfl, rfl, rfl, rfl, rfl, rfl, rfl⟩

theorem startQuizD_fields (o : Oracle) (b : Bool) (s : GameState) :
    ((startQuizD o b s).1.currentDifficulty = 1) ∧
    ((startQuizD o b s).1.score = 0) ∧
    ((startQuizD o b s).1.wrongTopics = []) ∧
    ((startQuizD o b s).1.aiMode = (b && s.modelAvailable)) ∧
    ((startQuizD o b s).1.modelAvailable = s.modelAvailable) ∧
    ((startQuizD o b s).1.index = 0) := by
  unfold startQuizD backfillShuffle
  dsimp only
  cases hb : b && s.modelAvailable with
  | true =>
    simp only [hb, if_true]
    generalize (if s.wrongTopics.isEmpty = true then none else some s.wrongTopics.dedup) = tps
    obtain ⟨g1, g2, g3, g4, g5, g6, g7⟩ := aiGenLoop_fields o tps 5
      { s with aiMode := true, questions := [], currentDifficulty := 1 }
    split
    all_goals
      refine ⟨?_, ?_, ?_, ?_, ?_, ?_⟩ <;>
        simp [nextQuestion_fields, g3, g4, g5, g6, g7]
  | false =>
    simp only [hb, Bool.false_eq_true, if_false]
    split
    all_goals
      refine ⟨?_, ?_, ?_, ?_, ?_, ?_⟩ <;>
        simp [nextQuestion_fields]

theorem startQuizD_log (o : Oracle) (b : Bool) (s : GameState) :
    (startQuizD o b s).2 =
      if b && s.modelAvailable then List.replicate 5 (1 : Int) else [] := by
  unfold startQuizD backfillShuffle
  dsimp only
  cases hb : b && s.modelAvailable with
  | true =>
    simp only [hb, if_true]
    rw [aiGenLoop_log]
  | false =>
    simp only [hb, Bool.false_eq_true, if_false]

theorem startQuizD_difficulty_bounds (o : Oracle) (b : Bool) (s : GameState) :
    1 ≤ (startQuizD o b s).1.currentDifficulty ∧
      (startQuizD o b s).1.currentDifficulty ≤ 3 := by
  rw [(startQuizD_fields o b s).1]
  omega

theorem handleAnswer_difficulty_bounds (s : GameState) (i : Nat)
    (h1 : 1 ≤ s.currentDifficulty) (h2 : s.currentDifficulty ≤ 3) :
    1 ≤ (handleAnswer s i).currentDifficulty ∧ (handleAnswer s i).currentDifficulty ≤ 3 := by
  rw [(handleAnswer_spec s i).2.2.2.1]
  exact ⟨h1, h2⟩

theorem continueStep_difficulty_bounds (s : GameState)
    (h1 : 1 ≤ s.currentDifficulty) (h2 : s.currentDifficulty ≤ 3) :
    1 ≤ (nextQuestion (adjustDifficulty s)).currentDifficulty ∧
      (nextQuestion (adjustDifficulty s)).currentDifficulty ≤ 3 := by
  rw [(nextQuestion_fields _).2.2.1]
  rcases adjustDifficulty_cases s with h | ⟨h, h3⟩ | ⟨h, h3⟩ <;> rw [h] <;> omega

theorem step_difficulty_bounds (o : Oracle) (s : GameState) (e : Event)
    (h1 : 1 ≤ s.currentDifficulty) (h2 : s.currentDifficulty ≤ 3) :
    1 ≤ (step o s e).1.currentDifficulty ∧ (step o s e).1.currentDifficulty ≤ 3 := by
  obtain ⟨heap, qs, scr, idx, sc, d, wt, am, lua, ma, rng, gc⟩ := s
  cases scr with
  | home =>
    cases e with
    | clickStart =>
      exact startQuizD_difficulty_bounds o _ _
    | clickAIMode =>
      dsimp only [step]
      split
      · exact startQuizD_difficulty_bounds o _ _
      · exact ⟨h1, h2⟩
    | clickExplain =>
      exact ⟨h1, h2⟩
    | clickContinue =>
      exact ⟨h1, h2⟩
    | clickRetake =>
      exact ⟨h1, h2⟩
    | clickStudyPlan =>
      exact ⟨h1, h2⟩
    | noop =>
      exact ⟨h1, h2⟩
    | clickOption i =>
      exact ⟨h1, h2⟩
  | question =>
    cases e with
    | clickStart =>
      exact ⟨h1, h2⟩
    | clickAIMode =>
      exact ⟨h1, h2⟩
    | clickExplain =>
      exact ⟨h1, h2⟩
    | clickContinue =>
      exact ⟨h1, h2⟩
    | clickRetake =>
      exact ⟨h1, h2⟩
    | clickStudyPlan =>
      exact ⟨h1, h2⟩
    | noop =>
      exact ⟨h1, h2⟩
    | clickOption i =>
      dsimp only [step]
      split
      · exact handleAnswer_difficulty_bounds _ _ h1 h2
      · exact ⟨h1, h2⟩
  | feedback =>
    cases e with
    | clickStart =>
      exact ⟨h1, h2⟩
    | clickAIMode =>
      exact ⟨h1, h2⟩
    | clickExplain =>
      dsimp only [step]
      split
      · exact ⟨h1, h2⟩
      · exact ⟨h1, h2⟩
    | clickContinue =>
      exact continueStep_difficulty_bounds _ h1 h2
    | clickRetake =>
      exact ⟨h1, h2⟩
    | clickStudyPlan =>
      exact ⟨h1, h2⟩
    | noop =>
      exact ⟨h1, h2⟩
    | clickOption i =>
      exact ⟨h1, h2⟩
  | aiExplanation =>
    cases e with
    | clickStart =>
      exact ⟨h1, h2⟩
    | clickAIMode =>
      exact ⟨h1, h2⟩
    | clickExplain =>
      exact ⟨h1, h2⟩
    | clickContinue =>
      exact continueStep_difficulty_bounds _ h1 h2
    | clickRetake =>
      exact ⟨h1, h2⟩
    | clickStudyPlan =>
      exact ⟨h1, h2⟩
    | noop =>
      exact ⟨h1, h2⟩
    | clickOption i =>
      exact ⟨h1, h2⟩
  | summary =>
    cases e with
    | clickStart =>
      exact ⟨h1, h2⟩
    | clickAIMode =>
      exact ⟨h1, h2⟩
    | clickExplain =>
      exact ⟨h1, h2⟩
    | clickContinue =>
      exact ⟨h1, h2⟩
    | clickRetake =>
      exact startQuizD_difficulty_bounds o _ _
    | clickStudyPlan =>
      dsimp only [step]
      split
      · exact ⟨h1, h2⟩
      · exact ⟨h1, h2⟩
    | noop =>
      exact ⟨h1, h2⟩
    | clickOption i =>
      exact ⟨h1, h2⟩
  | studyPlan =>
    cases e with
    | clickStart =>
      exact ⟨h1, h2⟩
    | clickAIMode =>
      exact ⟨h1, h2⟩
    | clickExplain =>
      exact ⟨h1, h2⟩
    | clickContinue =>
      exact ⟨h1, h2⟩
    | clickRetake =>
      exact startQuizD_difficulty_bounds o _ _
    | clickStudyPlan =>
      exact ⟨h1, h2⟩
    | noop =>
      exact ⟨h1, h2⟩
    | clickOption i =>
      exact ⟨h1, h2⟩

theorem run_difficulty_bounds (o : Oracle) :
    ∀ (evs : List Event) (s : GameState),
      1 ≤ s.currentDifficulty → s.currentDifficulty ≤ 3 →
      1 ≤ (run o s evs).1.currentDifficulty ∧ (run o s evs).1.currentDifficulty ≤ 3 := by
  intro evs
  induction evs with
  | nil => intro s h1 h2; exact ⟨h1, h2⟩
  | cons e es ih =>
    intro s h1 h2
    have hb := step_difficulty_bounds o s e h1 h2
    exact ih _ hb.1 hb.2

theorem startStep_difficulty_change (o : Oracle) (b : Bool) (s : GameState) (e : Event)
    (hrs : isRoundStart s e) :
    (startQuizD o b s).1.currentDifficulty = s.currentDifficulty ∨
    ((startQuizD o b s).1.currentDifficulty = 1 ∧ isRoundStart s e) ∨
    (((startQuizD o b s).1.currentDifficulty = s.currentDifficulty + 1 ∨
      (startQuizD o b s).1.currentDifficulty = s.currentDifficulty - 1) ∧ isAdjustPoint s e) :=
  Or.inr (Or.inl ⟨(startQuizD_fields o b s).1, hrs⟩)

theorem continueStep_difficulty_change (s : GameState)
    (hpt : s.screen = Screen.feedback ∨ s.screen = Screen.aiExplanation) :
    (nextQuestion (adjustDifficulty s)).currentDifficulty = s.currentDifficulty ∨
    ((nextQuestion (adjustDifficulty s)).currentDifficulty = 1 ∧
      isRoundStart s Event.clickContinue) ∨
    (((nextQuestion (adjustDifficulty s)).currentDifficulty = s.currentDifficulty + 1 ∨
      (nextQuestion (adjustDifficulty s)).currentDifficulty = s.currentDifficulty - 1) ∧
      isAdjustPoint s Event.clickContinue) := by
  rw [(nextQuestion_fields _).2.2.1]
  rcases adjustDifficulty_cases s with h | ⟨h, _⟩ | ⟨h, _⟩
  · exact Or.inl h
  · exact Or.inr (Or.inr ⟨Or.inl h, hpt, rfl⟩)
  · exact Or.inr (Or.inr ⟨Or.inr h, hpt, rfl⟩)

theorem step_difficulty_change (o : Oracle) (s : GameState) (e : Event) :
    (step o s e).1.currentDifficulty = s.currentDifficulty ∨
    ((step o s e).1.currentDifficulty = 1 ∧ isRoundStart s e) ∨
    (((step o s e).1.currentDifficulty = s.currentDifficulty + 1 ∨
      (step o s e).1.currentDifficulty = s.currentDifficulty - 1) ∧ isAdjustPoint s e) := by
  obtain ⟨heap, qs, scr, idx, sc, d, wt, am, lua, ma, rng, gc⟩ := s
  cases scr with
  | home =>
    cases e with
    | clickStart =>
      exact startStep_difficulty_change o _ _ _ (Or.inl ⟨rfl, Or.inl rfl⟩)
    | clickAIMode =>
      dsimp only [step]
      split
      · exact startStep_difficulty_change o _ _ _ (Or.inl ⟨rfl, Or.inr rfl⟩)
      · exact Or.inl rfl
    | clickExplain =>
      exact Or.inl rfl
    | clickContinue =>
      exact Or.inl rfl
    | clickRetake =>
      exact Or.inl rfl
    | clickStudyPlan =>
      exact Or.inl rfl
    | noop =>
      exact Or.inl rfl
    | clickOption i =>
      exact Or.inl rfl
  | question =>
    cases e with
    | clickStart =>
      exact Or.inl rfl
    | clickAIMode =>
      exact Or.inl rfl
    | clickExplain =>
      exact Or.inl rfl
    | clickContinue =>
      exact Or.inl rfl
    | clickRetake =>
      exact Or.inl rfl
    | clickStudyPlan =>
      exact Or.inl rfl
    | noop =>
      exact Or.inl rfl
    | clickOption i =>
      dsimp only [step]
      split
      · exact Or.inl (handleAnswer_spec _ _).2.2.2.1
      · exact Or.inl rfl
  | feedback =>
    cases e with
    | clickStart =>
      exact Or.inl rfl
    | clickAIMode =>
      exact Or.inl rfl
    | clickExplain =>
      dsimp only [step]
      split
      · exact Or.inl rfl
      · exact Or.inl rfl
    | clickContinue =>
      exact continueStep_difficulty_change _ (Or.inl rfl)
    | clickRetake =>
      exact Or.inl rfl
    | clickStudyPlan =>
      exact Or.inl rfl
    | noop =>
      exact Or.inl rfl
    | clickOption i =>
      exact Or.inl rfl
  | aiExplanation =>
    cases e with
    | clickStart =>
      exact Or.inl rfl
    | clickAIMode =>
      exact Or.inl rfl
    | clickExplain =>
      exact Or.inl rfl
    | clickContinue =>
      exact continueStep_difficulty_change _ (Or.inr rfl)
    | clickRetake =>
      exact Or.inl rfl
    | clickStudyPlan =>
      exact Or.inl rfl
    | noop =>
      exact Or.inl rfl
    | clickOption i =>
      exact Or.inl rfl
  | summary =>
    cases e with
    | clickStart =>
      exact Or.inl rfl
    | clickAIMode =>
      exact Or.inl rfl
    | clickExplain =>
      exact Or.inl rfl
    | clickContinue =>
      exact Or.inl rfl
    | clickRetake =>
      exact startStep_difficulty_change o _ _ _ (Or.inr ⟨Or.inl rfl, rfl⟩)
    | clickStudyPlan =>
      dsimp only [step]
      split
      · exact Or.inl rfl
      · exact Or.inl rfl
    | noop =>
      exact Or.inl rfl
    | clickOption i =>
      exact Or.inl rfl
  | studyPlan =>
    cases e with
    | clickStart =>
      exact Or.inl rfl
    | clickAIMode =>
      exact Or.inl rfl
    | clickExplain =>
      exact Or.inl rfl
    | clickContinue =>
      exact Or.inl rfl
    | clickRetake =>
      exact startStep_difficulty_change o _ _ _ (Or.inr ⟨Or.inr rfl, rfl⟩)
    | clickStudyPlan =>
      exact Or.inl rfl
    | noop =>
      exact Or.inl rfl
    | clickOption i =>
      exact Or.inl rfl

theorem startQuizD_log_ones (o : Oracle) (b : Bool) (s : GameState) :
    ∀ x ∈ (startQuizD o b s).2, x = (1 : Int) := by
  rw [startQuizD_log]
  split
  · intro x hx
    exact List.eq_of_mem_replicate hx
  · intro x hx
    cases hx

theorem step_log_ones (o : Oracle) (s : GameState) (e : Event) :
    ∀ x ∈ (step o s e).2, x = (1 : Int) := by
  obtain ⟨heap, qs, scr, idx, sc, d, wt, am, lua, ma, rng, gc⟩ := s
  cases scr with
  | home =>
    cases e with
    | clickStart =>
      exact startQuizD_log_ones o _ _
    | clickAIMode =>
      dsimp only [step]
      split
      · exact startQuizD_log_ones o _ _
      · intro x hx; cases hx
    | clickExplain =>
      intro x hx
      cases hx
    | clickContinue =>
      intro x hx
      cases hx
    | clickRetake =>
      intro x hx
      cases hx
    | clickStudyPlan =>
      intro x hx
      cases hx
    | noop =>
      intro x hx
      cases hx
    | clickOption i =>
      intro x hx
      cases hx
  | question =>
    cases e with
    | clickStart =>
      intro x hx
      cases hx
    | clickAIMode =>
      intro x hx
      cases hx
    | clickExplain =>
      intro x hx
      cases hx
    | clickContinue =>
      intro x hx
      cases hx
    | clickRetake =>
      intro x hx
      cases hx
    | clickStudyPlan =>
      intro x hx
      cases hx
    | noop =>
      intro x hx
      cases hx
    | clickOption i =>
      dsimp only [step]
      split
      · intro x hx; cases hx
      · intro x hx; cases hx
  | feedback =>
    cases e with
    | clickStart =>
      intro x hx
      cases hx
    | clickAIMode =>
      intro x hx
      cases hx
    | clickExplain =>
      dsimp only [step]
      split
      · intro x hx; cases hx
      · intro x hx; cases hx
    | clickContinue =>
      intro x hx
      cases hx
    | clickRetake =>
      intro x hx
      cases hx
    | clickStudyPlan =>
      intro x hx
      cases hx
    | noop =>
      intro x hx
      cases hx
    | clickOption i =>
      intro x hx
      cases hx
  | aiExplanation =>
    cases e with
    | clickStart =>
      intro x hx
      cases hx
    | clickAIMode =>
      intro x hx
      cases hx
    | clickExplain =>
      intro x hx
      cases hx
    | clickContinue =>
      intro x hx
      cases hx
    | clickRetake =>
      intro x hx
      cases hx
    | clickStudyPlan =>
      intro x hx
      cases hx
    | noop =>
      intro x hx
      cases hx
    | clickOption i =>
      intro x hx
      cases hx
  | summary =>
    cases e with
    | clickStart =>
      intro x hx
      cases hx
    | clickAIMode =>
      intro x hx
      cases hx
    | clickExplain =>
      intro x hx
      cases hx
    | clickContinue =>
      intro x hx
      cases hx
    | clickRetake =>
      exact startQuizD_log_ones o _ _
    | clickStudyPlan =>
      dsimp only [step]
      split
      · intro x hx; cases hx
      · intro x hx; cases hx
    | noop =>
      intro x hx
      cases hx
    | clickOption i =>
      intro x hx
      cases hx
  | studyPlan =>
    cases e with
    | clickStart =>
      intro x hx
      cases hx
    | clickAIMode =>
      intro x hx
      cases hx
    | clickExplain =>
      intro x hx
      cases hx
    | clickContinue =>
      intro x hx
      cases hx
    | clickRetake =>
      exact startQuizD_log_ones o _ _
    | clickStudyPlan =>
      intro x hx
      cases hx
    | noop =>
      intro x hx
      cases hx
    | clickOption i =>
      intro x hx
      cases hx

theorem run_log_ones (o : Oracle) :
    ∀ (evs : List Event) (s : GameState), ∀ x ∈ (run o s evs).2, x = (1 : Int) := by
  intro evs
  induction evs with
  | nil => intro s x hx; cases hx
  | cons e es ih =>
    intro s x hx
    rcases List.mem_append.mp hx with hx | hx
    · exact step_log_ones o s e x hx
    · exact ih _ x hx

/-!
Reduction lemmas exposing `step` on each handled state-event pair, and
no-op lemmas for the unhandled pairs.
-/

theorem step_home_start (o : Oracle) (s : GameState) (h : s.screen = Screen.home) :
    step o s Event.clickStart = startQuizD o false s := by
  obtain ⟨heap, qs, scr, idx, sc, d, wt, am, lua, ma, rng, gc⟩ := s
  cases scr <;> first | rfl | exact Screen.noConfusion h

theorem step_home_aiMode (o : Oracle) (s : GameState) (h : s.screen = Screen.home) :
    step o s Event.clickAIMode =
      if s.modelAvailable then startQuizD o true s else (s, []) := by
  obtain ⟨heap, qs, scr, idx, sc, d, wt, am, lua, ma, rng, gc⟩ := s
  cases scr <;> first | rfl | exact Screen.noConfusion h

theorem step_question_option (o : Oracle) (s : GameState) (i : Nat)
    (h : s.screen = Screen.question) :
    step o s (Event.clickOption i) =
      if i < (currentQ s).options.length then (handleAnswer s i, []) else (s, []) := by
  obtain ⟨heap, qs, scr, idx, sc, d, wt, am, lua, ma, rng, gc⟩ := s
  cases scr <;> first | rfl | exact Screen.noConfusion h

theorem step_feedback_continue (o : Oracle) (s : GameState)
    (h : s.screen = Screen.feedback) :
    step o s Event.clickContinue = (nextQuestion (adjustDifficulty s), []) := by
  obtain ⟨heap, qs, scr, idx, sc, d, wt, am, lua, ma, rng, gc⟩ := s
  cases scr <;> first | rfl | exact Screen.noConfusion h

theorem step_aiExplanation_continue (o : Oracle) (s : GameState)
    (h : s.screen = Screen.aiExplanation) :
    step o s Event.clickContinue = (nextQuestion (adjustDifficulty s), []) := by
  obtain ⟨heap, qs, scr, idx, sc, d, wt, am, lua, ma, rng, gc⟩ := s
  cases scr <;> first | rfl | exact Screen.noConfusion h

theorem step_summary_retake (o : Oracle) (s : GameState)
    (h : s.screen = Screen.summary) :
    step o s Event.clickRetake = startQuizD o s.aiMode s := by
  obtain ⟨heap, qs, scr, idx, sc, d, wt, am, lua, ma, rng, gc⟩ := s
  cases scr <;> first | rfl | exact Screen.noConfusion h

theorem step_studyPlan_retake (o : Oracle) (s : GameState)
    (h : s.screen = Screen.studyPlan) :
    step o s Event.clickRetake = startQuizD o s.aiMode s := by
  obtain ⟨heap, qs, scr, idx, sc, d, wt, am, lua, ma, rng, gc⟩ := s
  cases scr <;> first | rfl | exact Screen.noConfusion h

theorem step_noop_eq (o : Oracle) (s : GameState) : step o s Event.noop = (s, []) := by
  obtain ⟨heap, qs, scr, idx, sc, d, wt, am, lua, ma, rng, gc⟩ := s
  cases scr <;> rfl

theorem step_start_nothome (o : Oracle) (s : GameState) (h : s.screen ≠ Screen.home) :
    step o s Event.clickStart = (s, []) := by
  obtain ⟨heap, qs, scr, idx, sc, d, wt, am, lua, ma, rng, gc⟩ := s
  cases scr <;> first | rfl | exact absurd rfl h

theorem step_option_notquestion (o : Oracle) (s : GameState) (i : Nat)
    (h : s.screen ≠ Screen.question) :
    step o s (Event.clickOption i) = (s, []) := by
  obtain ⟨heap, qs, scr, idx, sc, d, wt, am, lua, ma, rng, gc⟩ := s
  cases scr <;> first | rfl | exact absurd rfl h

theorem step_continue_other (o : Oracle) (s : GameState)
    (h1 : s.screen ≠ Screen.feedback) (h2 : s.screen ≠ Screen.aiExplanation) :
    step o s Event.clickContinue = (s, []) := by
  obtain ⟨heap, qs, scr, idx, sc, d, wt, am, lua, ma, rng, gc⟩ := s
  cases scr <;> first | rfl | exact absurd rfl h1 | exact absurd rfl h2

theorem step_retake_other (o : Oracle) (s : GameState)
    (h1 : s.screen ≠ Screen.summary) (h2 : s.screen ≠ Screen.studyPlan) :
    step o s Event.clickRetake = (s, []) := by
  obtain ⟨heap, qs, scr, idx, sc, d, wt, am, lua, ma, rng, gc⟩ := s
  cases scr <;> first | rfl | exact absurd rfl h1 | exact absurd rfl h2

/-!
Model-availability only gates the three AI entry points: lemmas showing
every other transition ignores it.
-/

theorem nextQuestion_setModelAvail (s : GameState) (b : Bool) :
    nextQuestion (setModelAvail s b) = setModelAvail (nextQuestion s) b := by
  unfold nextQuestion setModelAvail
  dsimp only
  split_ifs <;> rfl

theorem adjustDifficulty_setModelAvail (s : GameState) (b : Bool) :
    adjustDifficulty (setModelAvail s b) = setModelAvail (adjustDifficulty s) b := by
  unfold adjustDifficulty setModelAvail
  dsimp only
  split_ifs <;> rfl

theorem handleAnswer_setModelAvail (s : GameState) (i : Nat) (b : Bool) :
    handleAnswer (setModelAvail s b) i = setModelAvail (handleAnswer s i) b := by
  unfold handleAnswer setModelAvail
  dsimp only
  split_ifs <;> rfl

theorem startQuizD_false_setModelAvail (o : Oracle) (s : GameState) (b : Bool) :
    (startQuizD o false (setModelAvail s b)).1 = setModelAvail ((startQuizD o false s).1) b ∧
    (startQuizD o false (setModelAvail s b)).2 = (startQuizD o false s).2 := by
  unfold startQuizD backfillShuffle setModelAvail
  dsimp only
  simp only [Bool.false_and, Bool.false_eq_true, if_false]
  constructor
  · split_ifs <;>
      first
        | exact nextQuestion_setModelAvail _ _
        | rfl
  · trivial

theorem currentQ_setModelAvail (s : GameState) (b : Bool) :
    currentQ (setModelAvail s b) = currentQ s := rfl

theorem step_standard_model_agnostic (o : Oracle) (s : GameState) (e : Event) (b : Bool)
    (he : standardEvent e) (ham : s.aiMode = false) :
    (step o (setModelAvail s b) e).1 = setModelAvail ((step o s e).1) b ∧
    (step o (setModelAvail s b) e).2 = (step o s e).2 := by
  have hbscr : (setModelAvail s b).screen = s.screen := rfl
  have hbai : (setModelAvail s b).aiMode = s.aiMode := rfl
  rcases he with rfl | rfl | rfl | rfl | ⟨i, rfl⟩
  · by_cases hscr : s.screen = Screen.home
    · rw [step_home_start o _ (hbscr.trans hscr), step_home_start o s hscr]
      exact startQuizD_false_setModelAvail o s b
    · rw [step_start_nothome o _ (fun hc => hscr (hbscr.symm.trans hc)),
        step_start_nothome o s hscr]
      exact ⟨rfl, rfl⟩
  · by_cases h1 : s.screen = Screen.feedback
    · rw [step_feedback_continue o _ (hbscr.trans h1), step_feedback_continue o s h1]
      exact ⟨(congrArg nextQuestion (adjustDifficulty_setModelAvail s b)).trans
        (nextQuestion_setModelAvail _ b), rfl⟩
    · by_cases h2 : s.screen = Screen.aiExplanation
      · rw [step_aiExplanation_continue o _ (hbscr.trans h2),
          step_aiExplanation_continue o s h2]
        exact ⟨(congrArg nextQuestion (adjustDifficulty_setModelAvail s b)).trans
          (nextQuestion_setModelAvail _ b), rfl⟩
      · rw [step_continue_other o _ (fun hc => h1 (hbscr.symm.trans hc))
            (fun hc => h2 (hbscr.symm.trans hc)),
          step_continue_other o s h1 h2]
        exact ⟨rfl, rfl⟩
  · by_cases h1 : s.screen = Screen.summary
    · rw [step_summary_retake o _ (hbscr.trans h1), step_summary_retake o s h1,
        hbai, ham]
      exact startQuizD_false_setModelAvail o s b
    · by_cases h2 : s.screen = Screen.studyPlan
      · rw [step_studyPlan_retake o _ (hbscr.trans h2), step_studyPlan_retake o s h2,
          hbai, ham]
        exact startQuizD_false_setModelAvail o s b
      · rw [step_retake_other o _ (fun hc => h1 (hbscr.symm.trans hc))
            (fun hc => h2 (hbscr.symm.trans hc)),
          step_retake_other o s h1 h2]
        exact ⟨rfl, rfl⟩
  · rw [step_noop_eq, step_noop_eq]
    exact ⟨rfl, rfl⟩
  · by_cases hscr : s.screen = Screen.question
    · rw [step_question_option o _ i (hbscr.trans hscr), step_question_option o s i hscr,
        currentQ_setModelAvail]
      by_cases h : i < (currentQ s).options.length
      · rw [if_pos h, if_pos h]
        exact ⟨handleAnswer_setModelAvail s i b, rfl⟩
      · rw [if_neg h, if_neg h]
        exact ⟨rfl, rfl⟩
    · rw [step_option_notquestion o _ i (fun hc => hscr (hbscr.symm.trans hc)),
        step_option_notquestion o s i hscr]
      exact ⟨rfl, rfl⟩

theorem step_aiMode_unconfigured (o : Oracle) (s : GameState)
    (hm : s.modelAvailable = false) : step o s Event.clickAIMode = (s, []) := by
  obtain ⟨heap, qs, scr, idx, sc, d, wt, am, lua, ma, rng, gc⟩ := s
  have hm2 : ma = false := hm
  subst hm2
  cases scr <;> rfl

theorem step_explain_unconfigured (o : Oracle) (s : GameState)
    (hm : s.modelAvailable = false) : step o s Event.clickExplain = (s, []) := by
  obtain ⟨heap, qs, scr, idx, sc, d, wt, am, lua, ma, rng, gc⟩ := s
  have hm2 : ma = false := hm
  subst hm2
  cases scr <;> try rfl
  dsimp only [step]
  split
  · next h => exact absurd h.2 (by decide)
  · rfl

theorem step_studyplan_unconfigured (o : Oracle) (s : GameState)
    (hm : s.modelAvailable = false) : step o s Event.clickStudyPlan = (s, []) := by
  obtain ⟨heap, qs, scr, idx, sc, d, wt, am, lua, ma, rng, gc⟩ := s
  have hm2 : ma = false := hm
  subst hm2
  cases scr <;> rfl

theorem startQuizD_flag_irrelevant_unconfigured (o : Oracle) (s : GameState)
    (hm : s.modelAvailable = false) : startQuizD o true s = startQuizD o false s := by
  unfold startQuizD backfillShuffle
  dsimp only
  simp only [hm, Bool.and_false]

/-- C4: the session difficulty is 1 at initialisation and at every round
creation, it is within the bounds 1..3 in every state reachable from the
initial state, and a single transition either leaves it unchanged, resets
it to 1 at a round-construction point, or moves it by exactly plus or
minus one at a difficulty-adjustment evaluation point. -/
theorem C4_difficulty_invariant :
    (∀ (m : Bool), (initState m).currentDifficulty = 1) ∧
    (∀ (o : Oracle) (b : Bool) (s : GameState), (startQuizD o b s).1.currentDifficulty = 1) ∧
    (∀ (o : Oracle) (m : Bool) (evs : List Event),
      1 ≤ ((run o (initState m) evs).1).currentDifficulty ∧
        ((run o (initState m) evs).1).currentDifficulty ≤ 3) ∧
    (∀ (o : Oracle) (s : GameState) (e : Event),
      (step o s e).1.currentDifficulty = s.currentDifficulty ∨
      ((step o s e).1.currentDifficulty = 1 ∧ isRoundStart s e) ∨
      (((step o s e).1.currentDifficulty = s.currentDifficulty + 1 ∨
        (step o s e).1.currentDifficulty = s.currentDifficulty - 1) ∧ isAdjustPoint s e)) := by
  refine ⟨fun m => rfl, fun o b s => (startQuizD_fields o b s).1, ?_, step_difficulty_change⟩
  intro o m evs
  exact run_difficulty_bounds o evs (initState m) (le_refl 1)
    (show (1 : Int) ≤ 3 by norm_num)

/-- C8: with the Content Provider unconfigured, the AI-mode start, the
AI-explanation and the AI-study-plan buttons have no effect in any state,
a start request with the adaptive flag set runs exactly the standard-mode
round construction (and the session's adaptive flag stays off), and every
standard-play transition is independent of model availability. -/
theorem C8_unconfigured_provider (o : Oracle) (s : GameState)
    (hm : s.modelAvailable = false) :
    step o s Event.clickAIMode = (s, []) ∧
    step o s Event.clickExplain = (s, []) ∧
    step o s Event.clickStudyPlan = (s, []) ∧
    startQuizD o true s = startQuizD o false s ∧
    (startQuizD o true s).1.aiMode = false ∧
    (∀ (e : Event) (b : Bool), standardEvent e → s.aiMode = false →
      (step o (setModelAvail s b) e).1 = setModelAvail ((step o s e).1) b ∧
      (step o (setModelAvail s b) e).2 = (step o s e).2) := by
  refine ⟨step_aiMode_unconfigured o s hm, step_explain_unconfigured o s hm,
    step_studyplan_unconfigured o s hm, startQuizD_flag_irrelevant_unconfigured o s hm,
    ?_, fun e b he ham => step_standard_model_agnostic o s e b he ham⟩
  rw [(startQuizD_fields o true s).2.2.2.1, hm, Bool.and_false]

/-- Witness for C8 at the initial unconfigured state: the AI-mode button
does nothing, an adaptive-flag start leaves adaptive mode off, and a
standard start transition is unchanged by toggling model availability. -/
theorem C8_unconfigured_provider_witness :
    step oracleZero (initState false) Event.clickAIMode = (initState false, []) ∧
    (startQuizD oracleZero true (initState false)).1.aiMode = false ∧
    (step oracleZero (setModelAvail (initState false) true) Event.clickStart).1 =
      setModelAvail ((step oracleZero (initState false) Event.clickStart).1) true := by
  have h := C8_unconfigured_provider oracleZero (initState false) rfl
  exact ⟨h.1, h.2.2.2.2.1, (h.2.2.2.2.2 Event.clickStart true (Or.inl rfl) rfl).1⟩

/-- C10: in every run from the initial state, every difficulty argument
passed to the Content Provider's generation operation equals 1:
`start_quiz` resets the session difficulty to 1 before generating, the
generation loop never changes it, and no other transition generates. -/
theorem C10_generation_always_difficulty_one :
    ∀ (o : Oracle) (m : Bool) (evs : List Event),
      ((run o (initState m) evs).2).all (fun d => d == 1) = true := by
  intro o m evs
  rw [List.all_eq_true]
  intro x hx
  rw [beq_iff_eq]
  exact run_log_ones o evs (initState m) x hx

/-!
Round-play lemmas for the score and weak-topics accounting.
-/

theorem run_cons_fst (o : Oracle) (s : GameState) (e : Event) (es : List Event) :
    (run o s (e :: es)).1 = (run o (step o s e).1 es).1 := rfl

theorem correctCount_nil (heap : List Question) (qs : List Nat) :
    correctCount heap qs [] = 0 := by
  cases qs <;> rfl

theorem missedTopics_nil (heap : List Question) (qs : List Nat) :
    missedTopics heap qs [] = [] := by
  cases qs <;> rfl

theorem correctCount_drop (heap : List Question) (qs : List Nat) (k : Nat)
    (hk : k < qs.length) (a : Nat) (tl : List Nat) :
    correctCount heap (qs.drop k) (a :: tl) =
      (if a = (heapGet heap (qs.getD k 0)).answer then 1 else 0) +
        correctCount heap (qs.drop (k + 1)) tl := by
  rw [List.drop_eq_getElem_cons hk, getD_eq_getElem_of_lt qs k 0 hk]
  rfl

theorem missedTopics_drop (heap : List Question) (qs : List Nat) (k : Nat)
    (hk : k < qs.length) (a : Nat) (tl : List Nat) :
    missedTopics heap (qs.drop k) (a :: tl) =
      (if a = (heapGet heap (qs.getD k 0)).answer then []
       else (heapGet heap (qs.getD k 0)).topic.toList) ++
        missedTopics heap (qs.drop (k + 1)) tl := by
  rw [List.drop_eq_getElem_cons hk, getD_eq_getElem_of_lt qs k 0 hk]
  rfl

theorem run_round_aux (o : Oracle) :
    ∀ (sels : List Nat) (s : GameState),
      s.screen = Screen.question →
      0 ≤ s.index →
      s.index.toNat + sels.length = s.questions.length →
      (∀ k, k < sels.length →
        sels.getD k 0 <
          (heapGet s.heap (s.questions.getD (s.index.toNat + k) 0)).options.length) →
      ((run o s (roundEvents sels)).1.score =
        s.score + correctCount s.heap (s.questions.drop s.index.toNat) sels) ∧
      ((run o s (roundEvents sels)).1.wrongTopics =
        s.wrongTopics ++ missedTopics s.heap (s.questions.drop s.index.toNat) sels) ∧
      (sels ≠ [] → (run o s (roundEvents sels)).1.screen = Screen.summary) := by
  intro sels
  induction sels with
  | nil =>
    intro s hscr hidx hlen hvalid
    refine ⟨?_, ?_, fun h => absurd rfl h⟩
    · simp [roundEvents, run, correctCount_nil]
    · simp [roundEvents, run, missedTopics_nil]
  | cons a rest ih =>
    intro s hscr hidx hlen hvalid
    have hre : roundEvents (a :: rest) =
        Event.clickOption a :: Event.clickContinue :: roundEvents rest := rfl
    have hidxI : ((s.index.toNat : Nat) : Int) = s.index := Int.toNat_of_nonneg hidx
    have hidxlt : s.index.toNat < s.questions.length := by
      have : rest.length + 1 = (a :: rest).length := rfl
      omega
    have hguard : a < (currentQ s).options.length := by
      have h0 := hvalid 0 (by simp)
      simpa [currentQ] using h0
    have hstep1 : step o s (Event.clickOption a) = (handleAnswer s a, []) := by
      rw [step_question_option o s a hscr, if_pos hguard]
    obtain ⟨ha_q, ha_i, ha_scr, ha_d, ha_m, ha_am, ha_h, ha_sc, ha_wt⟩ :=
      handleAnswer_spec s a
    have hstep2 : step o (handleAnswer s a) Event.clickContinue =
        (nextQuestion (adjustDifficulty (handleAnswer s a)), []) :=
      step_feedback_continue o _ ha_scr
    obtain ⟨ad_sc, ad_wt, ad_h, ad_q, ad_am, ad_m, ad_i, ad_scr⟩ :=
      adjustDifficulty_fields (handleAnswer s a)
    obtain ⟨nq_sc, nq_wt, nq_d, nq_h, nq_q, nq_am, nq_m, nq_i⟩ :=
      nextQuestion_fields (adjustDifficulty (handleAnswer s a))
    rw [hre, run_cons_fst, hstep1]
    dsimp only
    rw [run_cons_fst, hstep2]
    dsimp only
    -- the state after answer plus continue
    have hs2q : (nextQuestion (adjustDifficulty (handleAnswer s a))).questions =
        s.questions := by rw [nq_q, ad_q, ha_q]
    have hs2h : (nextQuestion (adjustDifficulty (handleAnswer s a))).heap =
        setCorrect s.heap (s.questions.getD s.index.toNat 0)
          (if a = (heapGet s.heap (s.questions.getD s.index.toNat 0)).answer then 1
           else 0) := by rw [nq_h, ad_h, ha_h]
    have hs2sc : (nextQuestion (adjustDifficulty (handleAnswer s a))).score =
        s.score +
          (if a = (heapGet s.heap (s.questions.getD s.index.toNat 0)).answer then 1
           else 0) := by rw [nq_sc, ad_sc, ha_sc]
    have hs2wt : (nextQuestion (adjustDifficulty (handleAnswer s a))).wrongTopics =
        s.wrongTopics ++
          (if a = (heapGet s.heap (s.questions.getD s.index.toNat 0)).answer then []
           else (heapGet s.heap (s.questions.getD s.index.toNat 0)).topic.toList) := by
      rw [nq_wt, ad_wt, ha_wt]
    have hs2i : (nextQuestion (adjustDifficulty (handleAnswer s a))).index =
        s.index + 1 := by rw [nq_i, ad_i, ha_i]
    cases rest with
    | nil =>
      have hrunnil : (run o (nextQuestion (adjustDifficulty (handleAnswer s a)))
          (roundEvents [])).1 = nextQuestion (adjustDifficulty (handleAnswer s a)) := rfl
      rw [hrunnil]
      refine ⟨?_, ?_, fun _ => ?_⟩
      · rw [hs2sc, correctCount_drop s.heap s.questions s.index.toNat hidxlt a []]
        rw [correctCount_nil]
        omega
      · rw [hs2wt, missedTopics_drop s.heap s.questions s.index.toNat hidxlt a []]
        rw [missedTopics_nil]
        simp
      · rcases nextQuestion_shape (adjustDifficulty (handleAnswer s a)) with
          ⟨h, hc⟩ | ⟨h, hc⟩
        · rw [h]
        · exfalso
          rw [ad_i, ha_i, ad_q, ha_q] at hc
          have hlen1 : s.index.toNat + 1 = s.questions.length := by simpa using hlen
          omega
    | cons b2 rest2 =>
      have hlt2 : s.index + 1 < (s.questions.length : Int) := by
        have hL : (a :: b2 :: rest2).length = rest2.length + 2 := by simp
        omega
      have hscr2 : (nextQuestion (adjustDifficulty (handleAnswer s a))).screen =
          Screen.question := by
        rcases nextQuestion_shape (adjustDifficulty (handleAnswer s a)) with
          ⟨h, hc⟩ | ⟨h, hc⟩
        · exfalso
          rw [ad_i, ha_i, ad_q, ha_q] at hc
          omega
        · rw [h]
      have hidx2 : 0 ≤ (nextQuestion (adjustDifficulty (handleAnswer s a))).index := by
        rw [hs2i]; omega
      have htn2 : (nextQuestion (adjustDifficulty (handleAnswer s a))).index.toNat =
          s.index.toNat + 1 := by
        rw [hs2i]; omega
      have hlen2 : (nextQuestion (adjustDifficulty (handleAnswer s a))).index.toNat +
          (b2 :: rest2).length =
          (nextQuestion (adjustDifficulty (handleAnswer s a))).questions.length := by
        rw [htn2, hs2q]
        have : (a :: b2 :: rest2).length = (b2 :: rest2).length + 1 := rfl
        omega
      have hvalid2 : ∀ k, k < (b2 :: rest2).length →
          (b2 :: rest2).getD k 0 <
            (heapGet (nextQuestion (adjustDifficulty (handleAnswer s a))).heap
              ((nextQuestion (adjustDifficulty (handleAnswer s a))).questions.getD
                ((nextQuestion (adjustDifficulty (handleAnswer s a))).index.toNat + k) 0)
              ).options.length := by
        intro k hk
        have hk1 : k + 1 < (a :: b2 :: rest2).length := by
          simp at hk ⊢
          omega
        have h0 := hvalid (k + 1) hk1
        rw [hs2h, hs2q, htn2]
        rw [(heapGet_setCorrect_fields s.heap _ _ _).2.2]
        have harith : s.index.toNat + 1 + k = s.index.toNat + (k + 1) := by omega
        rw [harith]
        exact h0
      obtain ⟨ihs, iht, ihscr⟩ :=
        ih (nextQuestion (adjustDifficulty (handleAnswer s a))) hscr2 hidx2 hlen2 hvalid2
      refine ⟨?_, ?_, fun _ => ihscr (by simp)⟩
      · rw [ihs, hs2sc, hs2h, hs2q, htn2, correctCount_setCorrect]
        rw [correctCount_drop s.heap s.questions s.index.toNat hidxlt a (b2 :: rest2)]
        omega
      · rw [iht, hs2wt, hs2h, hs2q, htn2, missedTopics_setCorrect]
        rw [missedTopics_drop s.heap s.questions s.index.toNat hidxlt a (b2 :: rest2)]
        rw [List.append_assoc]

/-- C3: for every round (any question list, any heap) and every complete
sequence of in-range answer submissions, the score at the end of the round
equals the number of submissions whose selected option index equals the
current item's correct-answer index, each incorrectly answered item's
topic (when present) is appended to the weak-topics record in order, and
the round ends on the summary screen. -/
theorem C3_score_and_weak_topics :
    ∀ (o : Oracle) (s : GameState) (sels : List Nat),
      s.screen = Screen.question → s.index = 0 → s.score = 0 → s.wrongTopics = [] →
      sels.length = s.questions.length →
      (∀ k, k < sels.length →
        sels.getD k 0 < (heapGet s.heap (s.questions.getD k 0)).options.length) →
      ((run o s (roundEvents sels)).1.score = correctCount s.heap s.questions sels) ∧
      ((run o s (roundEvents sels)).1.wrongTopics =
        missedTopics s.heap s.questions sels) ∧
      (sels ≠ [] → (run o s (roundEvents sels)).1.screen = Screen.summary) := by
  intro o s sels hscr hidx hsc hwt hlen hvalid
  have htn : s.index.toNat = 0 := by rw [hidx]; rfl
  have h := run_round_aux o sels s hscr (by omega)
    (by rw [htn]; omega)
    (by intro k hk; rw [htn, Nat.zero_add]; exact hvalid k hk)
  rw [htn, List.drop_zero, hsc, hwt] at h
  obtain ⟨h1, h2, h3⟩ := h
  exact ⟨by rw [h1]; omega, by rw [h2]; simp, h3⟩

/-- Witness for C3: the concrete standard round `[0..9]` played with the
ten correct selections ends with score 10, an empty weak-topics record,
and the summary screen. -/
theorem C3_score_and_weak_topics_witness :
    (run oracleZero (run oracleZero (initState false) [Event.clickStart]).1
        (roundEvents correctSelections)).1.score = 10 ∧
    (run oracleZero (run oracleZero (initState false) [Event.clickStart]).1
        (roundEvents correctSelections)).1.wrongTopics = [] ∧
    (run oracleZero (run oracleZero (initState false) [Event.clickStart]).1
        (roundEvents correctSelections)).1.screen = Screen.summary := by
  have h := C3_score_and_weak_topics oracleZero
    ((run oracleZero (initState false) [Event.clickStart]).1) correctSelections
    (by decide) (by decide) (by decide) (by decide) (by decide) (by decide)
  exact ⟨h.1.trans (by decide), (h.2.1).trans (by decide), h.2.2 (by decide)⟩

theorem startQuizD_false_heap (o : Oracle) (s : GameState) :
    (startQuizD o false s).1.heap = s.heap := by
  unfold startQuizD backfillShuffle
  dsimp only
  simp only [Bool.false_and, Bool.false_eq_true, if_false]
  split_ifs <;> simp [nextQuestion_fields]

theorem startQuizD_false_questions_sub (o : Oracle) (s : GameState) :
    ∀ id ∈ (startQuizD o false s).1.questions, id ∈ freshPool s.heap [] := by
  unfold startQuizD backfillShuffle
  dsimp only
  simp only [Bool.false_and, Bool.false_eq_true, if_false]
  intro id hid
  rw [(nextQuestion_fields _).2.2.2.2.1] at hid
  split at hid
  · dsimp only at hid
    have h2 := sampleWoR_mem o.rand _ _ _ id hid
    simpa using h2
  · dsimp only at hid
    have h2 := sampleWoR_mem o.rand _ _ _ id hid
    simp only [List.nil_append] at h2
    exact sampleWoR_mem o.rand _ _ _ id h2

/-- C9 (amended): answering mutates only the current item's `correct`
key — the round list is unchanged, the heap size is unchanged, every
other heap cell is untouched, and the current cell changes exactly its
`correct` field; and on the first round constructed from the initial
state (a fresh bank) every item of the round carries no flag before the
user responds.  On retake rounds, re-used bank items retain the flag
written in earlier rounds, because the session aliases the bank dicts and
`start_quiz` never clears the key. -/
theorem C9_amended_flag_frame :
    (∀ (o : Oracle) (s : GameState) (i : Nat),
      s.screen = Screen.question →
      i < (currentQ s).options.length →
      ((step o s (Event.clickOption i)).1.questions = s.questions ∧
       (step o s (Event.clickOption i)).1.heap.length = s.heap.length ∧
       (∀ j, j ≠ s.questions.getD s.index.toNat 0 →
         heapGet (step o s (Event.clickOption i)).1.heap j = heapGet s.heap j) ∧
       (s.questions.getD s.index.toNat 0 < s.heap.length →
         heapGet (step o s (Event.clickOption i)).1.heap
             (s.questions.getD s.index.toNat 0) =
           { heapGet s.heap (s.questions.getD s.index.toNat 0) with
               correct := some (if i = (heapGet s.heap
                 (s.questions.getD s.index.toNat 0)).answer then 1 else 0) }))) ∧
    (∀ (o : Oracle) (m : Bool) (id : Nat),
      id ∈ ((step o (initState m) Event.clickStart).1).questions →
      (heapGet ((step o (initState m) Event.clickStart).1).heap id).correct = none) := by
  constructor
  · intro o s i hscr hguard
    rw [step_question_option o s i hscr, if_pos hguard]
    dsimp only
    obtain ⟨ha_q, ha_i, ha_scr, ha_d, ha_m, ha_am, ha_h, ha_sc, ha_wt⟩ :=
      handleAnswer_spec s i
    refine ⟨ha_q, ?_, ?_, ?_⟩
    · rw [ha_h, setCorrect_length]
    · intro j hj
      rw [ha_h, heapGet_setCorrect_ne _ _ _ _ hj]
    · intro hlt
      rw [ha_h, heapGet_setCorrect_self _ _ _ hlt]
  · have hbank : ∀ id, id ∈ List.range QUESTION_BANK.length →
        (heapGet QUESTION_BANK id).correct = none := by decide
    intro o m id hid
    rw [step_home_start o (initState m) rfl] at hid ⊢
    rw [startQuizD_false_heap]
    have hmem := startQuizD_false_questions_sub o (initState m) id hid
    unfold freshPool at hmem
    exact hbank id (List.mem_filter.mp hmem).1

/-- Witness for the amended C9 at the concrete first round: answering
question 0 with option 0 keeps the round list, leaves cell 5 untouched,
rewrites only the flag of cell 0, and before any answer the first round's
first item carries no flag. -/
theorem C9_amended_flag_frame_witness :
    (step oracleZero (step oracleZero (initState false) Event.clickStart).1
        (Event.clickOption 0)).1.questions =
      (step oracleZero (initState false) Event.clickStart).1.questions ∧
    heapGet (step oracleZero (step oracleZero (initState false) Event.clickStart).1
        (Event.clickOption 0)).1.heap 5 =
      heapGet (step oracleZero (initState false) Event.clickStart).1.heap 5 ∧
    heapGet (step oracleZero (step oracleZero (initState false) Event.clickStart).1
        (Event.clickOption 0)).1.heap 0 =
      { heapGet (step oracleZero (initState false) Event.clickStart).1.heap 0 with
          correct := some 0 } ∧
    (heapGet (step oracleZero (initState false) Event.clickStart).1.heap
        ((step oracleZero (initState false) Event.clickStart).1.questions.getD 0 0)
      ).correct = none := by
  have hA := C9_amended_flag_frame.1 oracleZero
    (step oracleZero (initState false) Event.clickStart).1 0 (by decide) (by decide)
  have hB := C9_amended_flag_frame.2 oracleZero false
    ((step oracleZero (initState false) Event.clickStart).1.questions.getD 0 0)
    (by decide)
  refine ⟨hA.1, hA.2.2.1 5 (by decide), ?_, hB⟩
  exact (hA.2.2.2 (by decide)).trans (by decide)

/-!
Heap and pool lemmas for round composition.
-/

theorem heapGet_append_lt (heap l : List Question) (i : Nat) (h : i < heap.length) :
    heapGet (heap ++ l) i = heapGet heap i := by
  unfold heapGet
  rw [List.getD_eq_getElem?_getD, List.getD_eq_getElem?_getD, List.getElem?_append]
  simp [h]

theorem heapGet_append_self (heap : List Question) (x : Question) :
    heapGet (heap ++ [x]) heap.length = x := by
  unfold heapGet
  rw [List.getD_eq_getElem?_getD, List.getElem?_append]
  simp

theorem bankCells_extend (heap l : List Question)
    (h : QUESTION_BANK.length ≤ heap.length) :
    bankCells (heap ++ l) = bankCells heap := by
  unfold bankCells
  apply List.map_congr_left
  intro i hi
  have : i < heap.length := by
    have := List.mem_range.mp hi
    omega
  exact heapGet_append_lt heap l i this

theorem map_heapGet_append (heap l : List Question) (qs : List Nat)
    (h : ∀ id ∈ qs, id < heap.length) :
    qs.map (heapGet (heap ++ l)) = qs.map (heapGet heap) := by
  apply List.map_congr_left
  intro id hid
  exact heapGet_append_lt heap l id (h id hid)

theorem freshPool_mem_lt (heap : List Question) (qs : List Nat) (i : Nat)
    (h : i ∈ freshPool heap qs) : i < QUESTION_BANK.length := by
  unfold freshPool at h
  exact List.mem_range.mp (List.mem_filter.mp h).1

theorem freshPool_value_fresh (heap : List Question) (qs : List Nat) (i : Nat)
    (h : i ∈ freshPool heap qs) :
    heapGet heap i ∉ qs.map (heapGet heap) := by
  unfold freshPool at h
  exact of_decide_eq_true (List.mem_filter.mp h).2

theorem freshPool_map_nodup (heap : List Question) (qs : List Nat)
    (h : (bankCells heap).Nodup) :
    ((freshPool heap qs).map (heapGet heap)).Nodup := by
  apply List.Nodup.sublist _ h
  unfold freshPool bankCells
  exact List.Sublist.map _ (List.filter_sublist _)

theorem filter_length_split {α : Type} (l : List α) (p : α → Bool) :
    (l.filter p).length + (l.filter (fun x => !(p x))).length = l.length := by
  rw [← List.countP_eq_length_filter, ← List.countP_eq_length_filter]
  have h := (List.length_eq_countP_add_countP p l).symm
  have e : (fun a => decide (¬ p a = true)) = (fun x => !(p x)) := by
    funext a
    cases p a <;> simp
  rw [e] at h
  exact h

theorem nodup_subset_length_le {α : Type} [DecidableEq α] (l1 l2 : List α)
    (hnd : l1.Nodup) (hsub : ∀ x ∈ l1, x ∈ l2) : l1.length ≤ l2.length := by
  have h1 : l1.toFinset.card = l1.length := List.toFinset_card_of_nodup hnd
  have h2 : l1.toFinset ⊆ l2.toFinset := by
    intro x hx
    rw [List.mem_toFinset] at hx ⊢
    exact hsub x hx
  calc l1.length = l1.toFinset.card := h1.symm
    _ ≤ l2.toFinset.card := Finset.card_le_card h2
    _ ≤ l2.length := List.toFinset_card_le l2

theorem freshPool_length_ge (heap : List Question) (qs : List Nat)
    (h : (bankCells heap).Nodup) :
    QUESTION_BANK.length ≤ (freshPool heap qs).length + qs.length := by
  have hsplit := filter_length_split (List.range QUESTION_BANK.length)
    (fun i => decide (heapGet heap i ∉ qs.map (heapGet heap)))
  rw [List.length_range] at hsplit
  have hbound : ((List.range QUESTION_BANK.length).filter
      (fun i => !(decide (heapGet heap i ∉ qs.map (heapGet heap))))).length ≤
      qs.length := by
    have hmapnd : (((List.range QUESTION_BANK.length).filter
        (fun i => !(decide (heapGet heap i ∉ qs.map (heapGet heap))))).map
          (heapGet heap)).Nodup := by
      apply List.Nodup.sublist _ h
      exact List.Sublist.map _ (List.filter_sublist _)
    have hsub : ∀ v ∈ ((List.range QUESTION_BANK.length).filter
        (fun i => !(decide (heapGet heap i ∉ qs.map (heapGet heap))))).map
          (heapGet heap), v ∈ qs.map (heapGet heap) := by
      intro v hv
      rcases List.mem_map.mp hv with ⟨i, hi, rfl⟩
      have h2 := (List.mem_filter.mp hi).2
      simp only [Bool.not_eq_true', decide_eq_false_iff_not, not_not] at h2
      exact h2
    have hlen := nodup_subset_length_le _ _ hmapnd hsub
    rw [List.length_map, List.length_map] at hlen
    exact hlen
  unfold freshPool
  omega

theorem aiGenLoop_inv (o : Oracle) (t : Option (List String)) :
    ∀ (n : Nat) (s : GameState),
      QUESTION_BANK.length ≤ s.heap.length →
      (bankCells s.heap).Nodup →
      s.questions.length + n ≤ QUESTION_BANK.length →
      (∀ id ∈ s.questions, id < s.heap.length) →
      (∀ v, v.topic ≠ some ("ai_generated") → (roundValues s).count v ≤ 1) →
      ((aiGenLoop o t n s).1.questions.length = s.questions.length + n ∧
       QUESTION_BANK.length ≤ (aiGenLoop o t n s).1.heap.length ∧
       bankCells (aiGenLoop o t n s).1.heap = bankCells s.heap ∧
       (∀ id ∈ (aiGenLoop o t n s).1.questions,
         id < (aiGenLoop o t n s).1.heap.length) ∧
       (∀ v, v.topic ≠ some ("ai_generated") →
         (roundValues (aiGenLoop o t n s).1).count v ≤ 1)) := by
  intro n
  induction n with
  | zero =>
    intro s h1 h2 h3 h4 h5
    exact ⟨(Nat.add_zero _).symm, h1, rfl, h4, h5⟩
  | succ n ih =>
    intro s h1 h2 h3 h4 h5
    unfold aiGenLoop
    cases hg : o.gen s.genCount s.currentDifficulty t with
    | some q =>
      dsimp only
      have h1' : QUESTION_BANK.length ≤
          (s.heap ++ [{ q with topic := some ("ai_generated") }]).length := by
        rw [List.length_append]
        omega
      have h2' : (bankCells
          (s.heap ++ [{ q with topic := some ("ai_generated") }])).Nodup := by
        rw [bankCells_extend _ _ h1]
        exact h2
      have h3' : (s.questions ++ [s.heap.length]).length + n ≤ QUESTION_BANK.length := by
        rw [List.length_append]
        simp only [List.length_cons, List.length_nil]
        omega
      have h4' : ∀ id ∈ s.questions ++ [s.heap.length],
          id < (s.heap ++ [{ q with topic := some ("ai_generated") }]).length := by
        intro id hid
        rw [List.length_append]
        simp only [List.length_cons, List.length_nil]
        rcases List.mem_append.mp hid with h | h
        · have := h4 id h
          omega
        · simp only [List.mem_cons, List.not_mem_nil, or_false] at h
          omega
      have hvals : (s.questions ++ [s.heap.length]).map
          (heapGet (s.heap ++ [{ q with topic := some ("ai_generated") }])) =
          s.questions.map (heapGet s.heap) ++
            [{ q with topic := some ("ai_generated") }] := by
        rw [List.map_append, map_heapGet_append _ _ _ h4]
        simp only [List.map_cons, List.map_nil, heapGet_append_self]
      have h5' : ∀ v, v.topic ≠ some ("ai_generated") →
          (((s.questions ++ [s.heap.length]).map
            (heapGet (s.heap ++ [{ q with topic := some ("ai_generated") }]))).count
              v ≤ 1) := by
        intro v hv
        rw [hvals, List.count_append]
        have hvq : v ∉ [({ q with topic := some ("ai_generated") } : Question)] := by
          intro hmem
          simp only [List.mem_cons, List.not_mem_nil, or_false] at hmem
          exact hv (by rw [hmem])
        rw [List.count_eq_zero.mpr hvq]
        have := h5 v hv
        unfold roundValues at this
        omega
      obtain ⟨i1, i2, i3, i4, i5⟩ := ih
        { s with heap := s.heap ++ [{ q with topic := some ("ai_generated") }],
                 questions := s.questions ++ [s.heap.length],
                 genCount := s.genCount + 1 } h1' h2' h3' h4' h5'
      refine ⟨?_, i2, ?_, i4, i5⟩
      · rw [i1]
        simp only [List.length_append, List.length_cons, List.length_nil]
        omega
      · exact i3.trans (bankCells_extend _ _ h1)
    | none =>
      dsimp only
      have hpoolge := freshPool_length_ge s.heap s.questions h2
      have hpos : 0 < (freshPool s.heap s.questions).length := by omega
      have hiE : (freshPool s.heap s.questions).isEmpty = false := by
        rcases hp : freshPool s.heap s.questions with _ | ⟨x, xs⟩
        · rw [hp] at hpos
          simp at hpos
        · rfl
      simp only [hiE, Bool.false_eq_true, if_false]
      have hk : o.rand s.rng % (freshPool s.heap s.questions).length <
          (freshPool s.heap s.questions).length := Nat.mod_lt _ hpos
      have hpicked : (freshPool s.heap s.questions).getD
          (o.rand s.rng % (freshPool s.heap s.questions).length) 0 ∈
          freshPool s.heap s.questions := by
        rw [getD_eq_getElem_of_lt _ _ _ hk]
        exact List.getElem_mem hk
      have h1' : QUESTION_BANK.length ≤ s.heap.length := h1
      have h3' : (s.questions ++ [(freshPool s.heap s.questions).getD
          (o.rand s.rng % (freshPool s.heap s.questions).length) 0]).length + n ≤
          QUESTION_BANK.length := by
        rw [List.length_append]
        simp only [List.length_cons, List.length_nil]
        omega
      have h4' : ∀ id ∈ s.questions ++ [(freshPool s.heap s.questions).getD
          (o.rand s.rng % (freshPool s.heap s.questions).length) 0],
          id < s.heap.length := by
        intro id hid
        rcases List.mem_append.mp hid with h | h
        · exact h4 id h
        · simp only [List.mem_cons, List.not_mem_nil, or_false] at h
          have := freshPool_mem_lt s.heap s.questions _ hpicked
          omega
      have h5' : ∀ v, v.topic ≠ some ("ai_generated") →
          (((s.questions ++ [(freshPool s.heap s.questions).getD
            (o.rand s.rng % (freshPool s.heap s.questions).length) 0]).map
              (heapGet s.heap)).count v ≤ 1) := by
        intro v hv
        rw [List.map_append, List.count_append]
        simp only [List.map_cons, List.map_nil]
        have hfresh := freshPool_value_fresh s.heap s.questions _ hpicked
        by_cases hvw : v = heapGet s.heap ((freshPool s.heap s.questions).getD
            (o.rand s.rng % (freshPool s.heap s.questions).length) 0)
        · rw [hvw]
          rw [List.count_eq_zero.mpr hfresh]
          have hone : List.count
              (heapGet s.heap ((freshPool s.heap s.questions).getD
                (o.rand s.rng % (freshPool s.heap s.questions).length) 0))
              [heapGet s.heap ((freshPool s.heap s.questions).getD
                (o.rand s.rng % (freshPool s.heap s.questions).length) 0)] = 1 := by
            simp
          omega
        · have hzero : List.count v
              [heapGet s.heap ((freshPool s.heap s.questions).getD
                (o.rand s.rng % (freshPool s.heap s.questions).length) 0)] = 0 := by
            apply List.count_eq_zero.mpr
            intro hmem
            simp only [List.mem_cons, List.not_mem_nil, or_false] at hmem
            exact hvw hmem
          rw [hzero]
          have := h5 v hv
          unfold roundValues at this
          omega
      obtain ⟨i1, i2, i3, i4, i5⟩ := ih
        { s with genCount := s.genCount + 1,
                 questions := s.questions ++ [(freshPool s.heap s.questions).getD
                   (o.rand s.rng % (freshPool s.heap s.questions).length) 0],
                 rng := s.rng + 1 } h1' h2 h3' h4' h5'
      refine ⟨?_, i2, i3, i4, i5⟩
      rw [i1]
      simp only [List.length_append, List.length_cons, List.length_nil]
      omega

theorem backfillShuffle_spec (o : Oracle) (s2 : GameState)
    (hNodup2 : (bankCells s2.heap).Nodup)
    (hle : s2.questions.length + totalQuestionsInRound ≤ QUESTION_BANK.length)
    (hcnt : ∀ v, v.topic ≠ some ("ai_generated") → (roundValues s2).count v ≤ 1) :
    ((backfillShuffle o s2).questions.length = totalQuestionsInRound) ∧
    ((backfillShuffle o s2).heap = s2.heap) ∧
    (∀ v, v.topic ≠ some ("ai_generated") →
      (roundValues (backfillShuffle o s2)).count v ≤ 1) ∧
    (s2.questions = [] → (roundValues (backfillShuffle o s2)).Nodup) := by
  have hp := freshPool_length_ge s2.heap s2.questions hNodup2
  have htot : totalQuestionsInRound = 10 := rfl
  have hQB : QUESTION_BANK.length = 15 := rfl
  have hnlt : ¬((freshPool s2.heap s2.questions).length <
      totalQuestionsInRound - s2.questions.length) := by omega
  unfold backfillShuffle
  dsimp only
  rw [if_neg hnlt]
  dsimp only
  have hsampLen : (sampleWoR o.rand s2.rng (freshPool s2.heap s2.questions)
      (totalQuestionsInRound - s2.questions.length)).1.length =
      totalQuestionsInRound - s2.questions.length := by
    rw [sampleWoR_length]
    omega
  have hperm := sampleWoR_perm o.rand
    ((s2.questions ++ (sampleWoR o.rand s2.rng (freshPool s2.heap s2.questions)
      (totalQuestionsInRound - s2.questions.length)).1).length)
    (sampleWoR o.rand s2.rng (freshPool s2.heap s2.questions)
      (totalQuestionsInRound - s2.questions.length)).2
    (s2.questions ++ (sampleWoR o.rand s2.rng (freshPool s2.heap s2.questions)
      (totalQuestionsInRound - s2.questions.length)).1) rfl
  have hvperm := hperm.map (heapGet s2.heap)
  have hsampNodup : ((sampleWoR o.rand s2.rng (freshPool s2.heap s2.questions)
      (totalQuestionsInRound - s2.questions.length)).1.map (heapGet s2.heap)).Nodup :=
    sampleWoR_map_nodup o.rand (heapGet s2.heap) _ _ _
      (freshPool_map_nodup s2.heap s2.questions hNodup2)
  have hsampFresh : ∀ w ∈ (sampleWoR o.rand s2.rng (freshPool s2.heap s2.questions)
      (totalQuestionsInRound - s2.questions.length)).1.map (heapGet s2.heap),
      w ∉ roundValues s2 := by
    intro w hw
    rcases List.mem_map.mp hw with ⟨id, hid, rfl⟩
    exact freshPool_value_fresh s2.heap s2.questions id
      (sampleWoR_mem o.rand _ _ _ id hid)
  refine ⟨?_, ?_, ?_, ?_⟩
  · rw [(nextQuestion_fields _).2.2.2.2.1]
    rw [hperm.length_eq, List.length_append, hsampLen]
    omega
  · rw [(nextQuestion_fields _).2.2.2.1]
  · intro v hv
    unfold roundValues
    rw [(nextQuestion_fields _).2.2.2.2.1, (nextQuestion_fields _).2.2.2.1]
    rw [hvperm.count_eq v]
    rw [List.map_append, List.count_append]
    by_cases hvS : v ∈ (sampleWoR o.rand s2.rng (freshPool s2.heap s2.questions)
        (totalQuestionsInRound - s2.questions.length)).1.map (heapGet s2.heap)
    · have hz : (s2.questions.map (heapGet s2.heap)).count v = 0 :=
        List.count_eq_zero.mpr (hsampFresh v hvS)
      have h1 := List.nodup_iff_count_le_one.mp hsampNodup v
      omega
    · have hz : ((sampleWoR o.rand s2.rng (freshPool s2.heap s2.questions)
          (totalQuestionsInRound - s2.questions.length)).1.map
            (heapGet s2.heap)).count v = 0 :=
        List.count_eq_zero.mpr hvS
      have h1 := hcnt v hv
      unfold roundValues at h1
      omega
  · intro hqnil
    unfold roundValues
    rw [(nextQuestion_fields _).2.2.2.2.1, (nextQuestion_fields _).2.2.2.1]
    apply (hvperm.symm).nodup
    rw [List.map_append]
    nth_rewrite 1 [hqnil]
    rw [List.map_nil, List.nil_append]
    exact hsampNodup

/-- C2 (amended): every round constructed by `start_quiz` over the
compiled-in 15-item bank has exactly 10 entries; no value can occur twice
among the entries drawn from the bank (every entry other than an accepted
generated item, which always carries the `ai_generated` topic); and with
adaptive mode off the whole round list is duplicate-free.  Distinct
adaptive slots may hold equal generated dicts, as the counterexample
shows, so full duplicate-freedom holds only for the bank-drawn part. -/
theorem C2_amended_round_composition (o : Oracle) (b : Bool) (s : GameState)
    (hLen : QUESTION_BANK.length ≤ s.heap.length)
    (hNodup : (bankCells s.heap).Nodup) :
    ((startQuizD o b s).1.questions.length = totalQuestionsInRound) ∧
    (∀ v, v.topic ≠ some ("ai_generated") →
      (roundValues (startQuizD o b s).1).count v ≤ 1) ∧
    ((b && s.modelAvailable) = false → (roundValues (startQuizD o b s).1).Nodup) := by
  have hQB : QUESTION_BANK.length = 15 := rfl
  have htot : totalQuestionsInRound = 10 := rfl
  unfold startQuizD
  dsimp only
  cases hb : b && s.modelAvailable with
  | true =>
    simp only [hb, if_true]
    obtain ⟨i1, i2, i3, i4, i5⟩ := aiGenLoop_inv o _ 5
      { s with aiMode := true, questions := ([] : List Nat), currentDifficulty := 1 }
      hLen hNodup (by show ([] : List Nat).length + 5 ≤ QUESTION_BANK.length; decide)
      (by intro id hid; exact absurd hid (List.not_mem_nil id))
      (by
        intro v hv
        show (([] : List Nat).map (heapGet s.heap)).count v ≤ 1
        simp)
    obtain ⟨b1, b2, b3, b4⟩ := backfillShuffle_spec o _
      (by rw [i3]; exact hNodup)
      (by
        rw [i1]
        show ([] : List Nat).length + 5 + totalQuestionsInRound ≤ QUESTION_BANK.length
        decide)
      i5
    refine ⟨b1, b3, fun h => ?_⟩
    exact absurd h (by decide)
  | false =>
    simp only [hb, Bool.false_eq_true, if_false]
    obtain ⟨b1, b2, b3, b4⟩ := backfillShuffle_spec o
      { s with aiMode := false, questions := ([] : List Nat), currentDifficulty := 1 }
      hNodup
      (by show ([] : List Nat).length + totalQuestionsInRound ≤ QUESTION_BANK.length; decide)
      (by
        intro v hv
        show (([] : List Nat).map (heapGet s.heap)).count v ≤ 1
        simp)
    exact ⟨b1, b3, fun _ => b4 rfl⟩

/-- Witness for the amended C2 at concrete states: the duplicate-payload
adaptive round still has 10 entries and holds bank item 0 at most once,
and a standard round from the initial state is duplicate-free. -/
theorem C2_amended_round_composition_witness :
    ((startQuizD oracleDupAI true (initState true)).1.questions.length =
      totalQuestionsInRound) ∧
    ((roundValues (startQuizD oracleDupAI true (initState true)).1).count
      (heapGet QUESTION_BANK 0) ≤ 1) ∧
    ((roundValues (startQuizD oracleZero false (initState false)).1).Nodup) := by
  have h1 := C2_amended_round_composition oracleDupAI true (initState true)
    (by decide) (by decide)
  have h2 := C2_amended_round_composition oracleZero false (initState false)
    (by decide) (by decide)
  exact ⟨h1.1, h1.2.1 (heapGet QUESTION_BANK 0) (by decide), h2.2.2 (by decide)⟩
